import Mathlib

/-!
# sqlite-viewer: the database access layer of `app.go`

A shallow embedding of `app.go` (package main of YosriMlik/sqlite-viewer) and of the
library functions its policy check is built from (`strings.ToUpper`, `strings.TrimSpace`,
`strings.HasPrefix`, `unicode.ToUpper`, `unicode.IsSpace`).

Go strings are modelled as Lean strings (sequences of Unicode scalar values): every string
reaching `app.go` comes from the front-end binding as decoded text.  Runes are natural
numbers (code points).
-/

namespace SqliteViewer

/-! ## Package unicode -/

namespace unicode

def MaxRune : Nat := 0x10FFFF
def MaxASCII : Nat := 0x7F
def MaxLatin1 : Nat := 0xFF

/-- The marker `UpperLower = MaxRune + 1` of an alternating upper/lower sequence. -/
def UpperLower : Int := 0x110000

/-- An entry `{Lo, Hi, Delta}` of `unicode.CaseRanges`; `Delta` is `Delta[UpperCase]`, the one
column `ToUpper` reads. -/
structure CaseRange where
  Lo : Nat
  Hi : Nat
  Delta : Int

/-- Writes one entry of the table. -/
abbrev cr (lo hi : Nat) (delta : Int) : CaseRange := CaseRange.mk lo hi delta

/-- The table `unicode.CaseRanges`, upper-case deltas only: one entry per range, built by
the rules of Go's table generator from the simple case mappings of the Unicode Character
Database (version 14.0). -/
def CaseRanges : List CaseRange := [
  cr 0x0041 0x005A 0, cr 0x0061 0x007A (-32), cr 0x00B5 0x00B5 743,
  cr 0x00C0 0x00D6 0, cr 0x00D8 0x00DE 0, cr 0x00E0 0x00F6 (-32),
  cr 0x00F8 0x00FE (-32), cr 0x00FF 0x00FF 121, cr 0x0100 0x012F UpperLower,
  cr 0x0130 0x0130 0, cr 0x0131 0x0131 (-232), cr 0x0132 0x0137 UpperLower,
  cr 0x0139 0x0148 UpperLower, cr 0x014A 0x0177 UpperLower, cr 0x0178 0x0178 0,
  cr 0x0179 0x017E UpperLower, cr 0x017F 0x017F (-300), cr 0x0180 0x0180 195,
  cr 0x0181 0x0181 0, cr 0x0182 0x0185 UpperLower, cr 0x0186 0x0186 0,
  cr 0x0187 0x0188 UpperLower, cr 0x0189 0x018A 0, cr 0x018B 0x018C UpperLower,
  cr 0x018E 0x018E 0, cr 0x018F 0x018F 0, cr 0x0190 0x0190 0,
  cr 0x0191 0x0192 UpperLower, cr 0x0193 0x0193 0, cr 0x0194 0x0194 0,
  cr 0x0195 0x0195 97, cr 0x0196 0x0196 0, cr 0x0197 0x0197 0,
  cr 0x0198 0x0199 UpperLower, cr 0x019A 0x019A 163, cr 0x019C 0x019C 0,
  cr 0x019D 0x019D 0, cr 0x019E 0x019E 130, cr 0x019F 0x019F 0,
  cr 0x01A0 0x01A5 UpperLower, cr 0x01A6 0x01A6 0, cr 0x01A7 0x01A8 UpperLower,
  cr 0x01A9 0x01A9 0, cr 0x01AC 0x01AD UpperLower, cr 0x01AE 0x01AE 0,
  cr 0x01AF 0x01B0 UpperLower, cr 0x01B1 0x01B2 0, cr 0x01B3 0x01B6 UpperLower,
  cr 0x01B7 0x01B7 0, cr 0x01B8 0x01B9 UpperLower, cr 0x01BC 0x01BD UpperLower,
  cr 0x01BF 0x01BF 56, cr 0x01C4 0x01C4 0, cr 0x01C5 0x01C5 (-1),
  cr 0x01C6 0x01C6 (-2), cr 0x01C7 0x01C7 0, cr 0x01C8 0x01C8 (-1),
  cr 0x01C9 0x01C9 (-2), cr 0x01CA 0x01CA 0, cr 0x01CB 0x01CB (-1),
  cr 0x01CC 0x01CC (-2), cr 0x01CD 0x01DC UpperLower, cr 0x01DD 0x01DD (-79),
  cr 0x01DE 0x01EF UpperLower, cr 0x01F1 0x01F1 0, cr 0x01F2 0x01F2 (-1),
  cr 0x01F3 0x01F3 (-2), cr 0x01F4 0x01F5 UpperLower, cr 0x01F6 0x01F6 0,
  cr 0x01F7 0x01F7 0, cr 0x01F8 0x021F UpperLower, cr 0x0220 0x0220 0,
  cr 0x0222 0x0233 UpperLower, cr 0x023A 0x023A 0, cr 0x023B 0x023C UpperLower,
  cr 0x023D 0x023D 0, cr 0x023E 0x023E 0, cr 0x023F 0x0240 10815,
  cr 0x0241 0x0242 UpperLower, cr 0x0243 0x0243 0, cr 0x0244 0x0244 0,
  cr 0x0245 0x0245 0, cr 0x0246 0x024F UpperLower, cr 0x0250 0x0250 10783,
  cr 0x0251 0x0251 10780, cr 0x0252 0x0252 10782, cr 0x0253 0x0253 (-210),
  cr 0x0254 0x0254 (-206), cr 0x0256 0x0257 (-205), cr 0x0259 0x0259 (-202),
  cr 0x025B 0x025B (-203), cr 0x025C 0x025C 42319, cr 0x0260 0x0260 (-205),
  cr 0x0261 0x0261 42315, cr 0x0263 0x0263 (-207), cr 0x0265 0x0265 42280,
  cr 0x0266 0x0266 42308, cr 0x0268 0x0268 (-209), cr 0x0269 0x0269 (-211),
  cr 0x026A 0x026A 42308, cr 0x026B 0x026B 10743, cr 0x026C 0x026C 42305,
  cr 0x026F 0x026F (-211), cr 0x0271 0x0271 10749, cr 0x0272 0x0272 (-213),
  cr 0x0275 0x0275 (-214), cr 0x027D 0x027D 10727, cr 0x0280 0x0280 (-218),
  cr 0x0282 0x0282 42307, cr 0x0283 0x0283 (-218), cr 0x0287 0x0287 42282,
  cr 0x0288 0x0288 (-218), cr 0x0289 0x0289 (-69), cr 0x028A 0x028B (-217),
  cr 0x028C 0x028C (-71), cr 0x0292 0x0292 (-219), cr 0x029D 0x029D 42261,
  cr 0x029E 0x029E 42258, cr 0x0345 0x0345 84, cr 0x0370 0x0373 UpperLower,
  cr 0x0376 0x0377 UpperLower, cr 0x037B 0x037D 130, cr 0x037F 0x037F 0,
  cr 0x0386 0x0386 0, cr 0x0388 0x038A 0, cr 0x038C 0x038C 0,
  cr 0x038E 0x038F 0, cr 0x0391 0x03A1 0, cr 0x03A3 0x03AB 0,
  cr 0x03AC 0x03AC (-38), cr 0x03AD 0x03AF (-37), cr 0x03B1 0x03C1 (-32),
  cr 0x03C2 0x03C2 (-31), cr 0x03C3 0x03CB (-32), cr 0x03CC 0x03CC (-64),
  cr 0x03CD 0x03CE (-63), cr 0x03CF 0x03CF 0, cr 0x03D0 0x03D0 (-62),
  cr 0x03D1 0x03D1 (-57), cr 0x03D5 0x03D5 (-47), cr 0x03D6 0x03D6 (-54),
  cr 0x03D7 0x03D7 (-8), cr 0x03D8 0x03EF UpperLower, cr 0x03F0 0x03F0 (-86),
  cr 0x03F1 0x03F1 (-80), cr 0x03F2 0x03F2 7, cr 0x03F3 0x03F3 (-116),
  cr 0x03F4 0x03F4 0, cr 0x03F5 0x03F5 (-96), cr 0x03F7 0x03F8 UpperLower,
  cr 0x03F9 0x03F9 0, cr 0x03FA 0x03FB UpperLower, cr 0x03FD 0x03FF 0,
  cr 0x0400 0x040F 0, cr 0x0410 0x042F 0, cr 0x0430 0x044F (-32),
  cr 0x0450 0x045F (-80), cr 0x0460 0x0481 UpperLower, cr 0x048A 0x04BF UpperLower,
  cr 0x04C0 0x04C0 0, cr 0x04C1 0x04CE UpperLower, cr 0x04CF 0x04CF (-15),
  cr 0x04D0 0x052F UpperLower, cr 0x0531 0x0556 0, cr 0x0561 0x0586 (-48),
  cr 0x10A0 0x10C5 0, cr 0x10C7 0x10C7 0, cr 0x10CD 0x10CD 0,
  cr 0x10D0 0x10FA 3008, cr 0x10FD 0x10FF 3008, cr 0x13A0 0x13EF 0,
  cr 0x13F0 0x13F5 0, cr 0x13F8 0x13FD (-8), cr 0x1C80 0x1C80 (-6254),
  cr 0x1C81 0x1C81 (-6253), cr 0x1C82 0x1C82 (-6244), cr 0x1C83 0x1C84 (-6242),
  cr 0x1C85 0x1C85 (-6243), cr 0x1C86 0x1C86 (-6236), cr 0x1C87 0x1C87 (-6181),
  cr 0x1C88 0x1C88 35266, cr 0x1C90 0x1CBA 0, cr 0x1CBD 0x1CBF 0,
  cr 0x1D79 0x1D79 35332, cr 0x1D7D 0x1D7D 3814, cr 0x1D8E 0x1D8E 35384,
  cr 0x1E00 0x1E95 UpperLower, cr 0x1E9B 0x1E9B (-59), cr 0x1E9E 0x1E9E 0,
  cr 0x1EA0 0x1EFF UpperLower, cr 0x1F00 0x1F07 8, cr 0x1F08 0x1F0F 0,
  cr 0x1F10 0x1F15 8, cr 0x1F18 0x1F1D 0, cr 0x1F20 0x1F27 8,
  cr 0x1F28 0x1F2F 0, cr 0x1F30 0x1F37 8, cr 0x1F38 0x1F3F 0,
  cr 0x1F40 0x1F45 8, cr 0x1F48 0x1F4D 0, cr 0x1F51 0x1F51 8,
  cr 0x1F53 0x1F53 8, cr 0x1F55 0x1F55 8, cr 0x1F57 0x1F57 8,
  cr 0x1F59 0x1F59 0, cr 0x1F5B 0x1F5B 0, cr 0x1F5D 0x1F5D 0,
  cr 0x1F5F 0x1F5F 0, cr 0x1F60 0x1F67 8, cr 0x1F68 0x1F6F 0,
  cr 0x1F70 0x1F71 74, cr 0x1F72 0x1F75 86, cr 0x1F76 0x1F77 100,
  cr 0x1F78 0x1F79 128, cr 0x1F7A 0x1F7B 112, cr 0x1F7C 0x1F7D 126,
  cr 0x1F80 0x1F87 8, cr 0x1F88 0x1F8F 0, cr 0x1F90 0x1F97 8,
  cr 0x1F98 0x1F9F 0, cr 0x1FA0 0x1FA7 8, cr 0x1FA8 0x1FAF 0,
  cr 0x1FB0 0x1FB1 8, cr 0x1FB3 0x1FB3 9, cr 0x1FB8 0x1FB9 0,
  cr 0x1FBA 0x1FBB 0, cr 0x1FBC 0x1FBC 0, cr 0x1FBE 0x1FBE (-7205),
  cr 0x1FC3 0x1FC3 9, cr 0x1FC8 0x1FCB 0, cr 0x1FCC 0x1FCC 0,
  cr 0x1FD0 0x1FD1 8, cr 0x1FD8 0x1FD9 0, cr 0x1FDA 0x1FDB 0,
  cr 0x1FE0 0x1FE1 8, cr 0x1FE5 0x1FE5 7, cr 0x1FE8 0x1FE9 0,
  cr 0x1FEA 0x1FEB 0, cr 0x1FEC 0x1FEC 0, cr 0x1FF3 0x1FF3 9,
  cr 0x1FF8 0x1FF9 0, cr 0x1FFA 0x1FFB 0, cr 0x1FFC 0x1FFC 0,
  cr 0x2126 0x2126 0, cr 0x212A 0x212A 0, cr 0x212B 0x212B 0,
  cr 0x2132 0x2132 0, cr 0x214E 0x214E (-28), cr 0x2160 0x216F 0,
  cr 0x2170 0x217F (-16), cr 0x2183 0x2184 UpperLower, cr 0x24B6 0x24CF 0,
  cr 0x24D0 0x24E9 (-26), cr 0x2C00 0x2C2F 0, cr 0x2C30 0x2C5F (-48),
  cr 0x2C60 0x2C61 UpperLower, cr 0x2C62 0x2C62 0, cr 0x2C63 0x2C63 0,
  cr 0x2C64 0x2C64 0, cr 0x2C65 0x2C65 (-10795), cr 0x2C66 0x2C66 (-10792),
  cr 0x2C67 0x2C6C UpperLower, cr 0x2C6D 0x2C6D 0, cr 0x2C6E 0x2C6E 0,
  cr 0x2C6F 0x2C6F 0, cr 0x2C70 0x2C70 0, cr 0x2C72 0x2C73 UpperLower,
  cr 0x2C75 0x2C76 UpperLower, cr 0x2C7E 0x2C7F 0, cr 0x2C80 0x2CE3 UpperLower,
  cr 0x2CEB 0x2CEE UpperLower, cr 0x2CF2 0x2CF3 UpperLower, cr 0x2D00 0x2D25 (-7264),
  cr 0x2D27 0x2D27 (-7264), cr 0x2D2D 0x2D2D (-7264), cr 0xA640 0xA66D UpperLower,
  cr 0xA680 0xA69B UpperLower, cr 0xA722 0xA72F UpperLower, cr 0xA732 0xA76F UpperLower,
  cr 0xA779 0xA77C UpperLower, cr 0xA77D 0xA77D 0, cr 0xA77E 0xA787 UpperLower,
  cr 0xA78B 0xA78C UpperLower, cr 0xA78D 0xA78D 0, cr 0xA790 0xA793 UpperLower,
  cr 0xA794 0xA794 48, cr 0xA796 0xA7A9 UpperLower, cr 0xA7AA 0xA7AA 0,
  cr 0xA7AB 0xA7AB 0, cr 0xA7AC 0xA7AC 0, cr 0xA7AD 0xA7AD 0,
  cr 0xA7AE 0xA7AE 0, cr 0xA7B0 0xA7B0 0, cr 0xA7B1 0xA7B1 0,
  cr 0xA7B2 0xA7B2 0, cr 0xA7B3 0xA7B3 0, cr 0xA7B4 0xA7C3 UpperLower,
  cr 0xA7C4 0xA7C4 0, cr 0xA7C5 0xA7C5 0, cr 0xA7C6 0xA7C6 0,
  cr 0xA7C7 0xA7CA UpperLower, cr 0xA7D0 0xA7D1 UpperLower, cr 0xA7D6 0xA7D9 UpperLower,
  cr 0xA7F5 0xA7F6 UpperLower, cr 0xAB53 0xAB53 (-928), cr 0xAB70 0xABBF (-38864),
  cr 0xFF21 0xFF3A 0, cr 0xFF41 0xFF5A (-32), cr 0x10400 0x10427 0,
  cr 0x10428 0x1044F (-40), cr 0x104B0 0x104D3 0, cr 0x104D8 0x104FB (-40),
  cr 0x10570 0x1057A 0, cr 0x1057C 0x1058A 0, cr 0x1058C 0x10592 0,
  cr 0x10594 0x10595 0, cr 0x10597 0x105A1 (-39), cr 0x105A3 0x105B1 (-39),
  cr 0x105B3 0x105B9 (-39), cr 0x105BB 0x105BC (-39), cr 0x10C80 0x10CB2 0,
  cr 0x10CC0 0x10CF2 (-64), cr 0x118A0 0x118BF 0, cr 0x118C0 0x118DF (-32),
  cr 0x16E40 0x16E5F 0, cr 0x16E60 0x16E7F (-32), cr 0x1E900 0x1E921 0,
  cr 0x1E922 0x1E943 (-34)
]

/-- The result `to(UpperCase, r, caseRange)` computes once it has found the range `cr`
holding `r`: in an `UpperLower` sequence the low bit of the offset is cleared
(`cr.Lo + ((r - cr.Lo) &^ 1 | UpperCase&1)`, with `UpperCase = 0`), otherwise `r + delta`. -/
def applyRange (cr : CaseRange) (r : Nat) : Nat :=
  if cr.Delta > (MaxRune : Int) then cr.Lo + (r - cr.Lo) / 2 * 2
  else ((r : Int) + cr.Delta).toNat

/-- Function `to(UpperCase, r, caseRange)`: the mapping of the range that holds `r`, or `r`
itself when no range does.  Go finds the range by binary search; the ranges are sorted and
disjoint (`CaseRanges_sorted`), so the first range holding `r` is the only one. -/
def to_ (r : Nat) : List CaseRange → Nat
  | [] => r
  | cr :: rest => if cr.Lo ≤ r ∧ r ≤ cr.Hi then applyRange cr r else to_ r rest

/-- Function `unicode.ToUpper`. -/
def ToUpper (r : Nat) : Nat :=
  if r ≤ MaxASCII then
    if 97 ≤ r ∧ r ≤ 122 then r - (97 - 65) else r
  else to_ r CaseRanges

/-- A `Range16{Lo, Hi, Stride}` of a `unicode.RangeTable`. -/
structure Range16 where
  Lo : Nat
  Hi : Nat
  Stride : Nat

/-- The `R16` ranges of `unicode.White_Space`. -/
def White_Space : List Range16 :=
  [.mk 0x0009 0x000d 1, .mk 0x0020 0x0085 101, .mk 0x00a0 0x1680 5600, .mk 0x2000 0x200a 1,
   .mk 0x2028 0x2029 1, .mk 0x202f 0x205f 48, .mk 0x3000 0x3000 1]

/-- The `LatinOffset` of `unicode.White_Space`: its first two ranges end in Latin-1. -/
def White_Space_LatinOffset : Nat := 2

/-- Function `is16`: `r` lies in one of the ranges, on its stride. -/
def is16 (ranges : List Range16) (r : Nat) : Bool :=
  ranges.any fun rg => decide (rg.Lo ≤ r) && decide (r ≤ rg.Hi) && (r - rg.Lo) % rg.Stride == 0

/-- Function `unicode.IsSpace`: a switch over the Latin-1 spaces, and the `White_Space` table
without its Latin-1 ranges above that (the table has no 32-bit ranges). -/
def IsSpace (r : Nat) : Bool :=
  if r ≤ MaxLatin1 then
    r == 9 || r == 10 || r == 11 || r == 12 || r == 13 || r == 32 || r == 0x85 || r == 0xA0
  else is16 (White_Space.drop White_Space_LatinOffset) r

end unicode

/-! ## Package strings -/

namespace strings

/-- The rune written for `r` by `strings.Map` (`utf8.AppendRune`): an invalid rune is written
as `utf8.RuneError`. -/
def runeToChar (r : Nat) : Char :=
  if r.isValidChar then Char.ofNat r else Char.ofNat 0xFFFD

/-- Function `strings.Map(mapping, s)` for a mapping that drops no rune. -/
def Map (mapping : Nat → Nat) (s : String) : String :=
  ⟨s.data.map fun c => runeToChar (mapping c.toNat)⟩

/-- Function `strings.ToUpper`: an all-ASCII string is returned as it is when it has no
lower-case letter and has its bytes `a..z` lowered by `'a' - 'A'` otherwise; any other
string goes through `Map(unicode.ToUpper, s)`. -/
def ToUpper (s : String) : String :=
  if s.data.all (fun c => decide (c.toNat < 0x80)) then
    if s.data.any (fun c => decide (97 ≤ c.toNat ∧ c.toNat ≤ 122)) then
      ⟨s.data.map fun c =>
        if 97 ≤ c.toNat ∧ c.toNat ≤ 122 then Char.ofNat (c.toNat - (97 - 65)) else c⟩
    else s
  else Map unicode.ToUpper s

/-- Function `strings.TrimSpace`: what is left after cutting the leading and the trailing
runes for which `unicode.IsSpace` holds (the ASCII fast path of the Go function cuts the same
runes). -/
def TrimSpace (s : String) : String :=
  ⟨(s.data.dropWhile fun c => unicode.IsSpace c.toNat).rdropWhile
    fun c => unicode.IsSpace c.toNat⟩

/-- Function `strings.HasPrefix(s, pre)`: `len(s) >= len(pre) && s[:len(pre)] == pre`. -/
def HasPrefix (s pre : String) : Bool :=
  decide (pre.data.length ≤ s.data.length) && s.data.take pre.data.length == pre.data

end strings

/-! ## The collaborators of `app.go`

The Wails runtime (file dialog), `database/sql` with the sqlite3 driver, and the `%v` verb
of `fmt` on a driver value are outside `app.go`.  They are an arbitrary `Engine`: every
answer they can give is a value of the field's type.  An `error` is its message. -/

/-- A `*sql.DB`, by identity. -/
abbrev Handle := Nat

/-- What `PRAGMA table_info` reports for one column, as `rows.Scan` at line 142 reads it:
`dflt_value` is SQL NULL (`none`) or a text. -/
structure TableInfo where
  cid : Int
  name : String
  type : String
  notnull : Bool
  dflt_value : Option String
  pk : Int
deriving DecidableEq

/-- The row a `*sql.Rows` stands on after `Next()`, as the three `Scan` calls of `app.go` see
it: each either fails with a message or stores what it read.  `ScanValues` is
`rows.Scan(valuePtrs...)`: the dynamically-typed values stored through the pointers, in
order, `none` being the nil interface (SQL NULL). -/
structure Row (V : Type) where
  ScanName : Except String String
  ScanInfo : Except String TableInfo
  ScanValues : Except String (List (Option V))

/-- A `*sql.Rows`: the answer of `rows.Columns()` and the rows for which `rows.Next()`
is true. -/
structure Rows (V : Type) where
  Columns : Except String (List String)
  Next : List (Row V)

/-- The answers of the collaborators.  `V` is the type of the non-nil values the driver
hands out (int64, float64, []byte, string, ...), `Sprintf_v` their `fmt.Sprintf("%v", val)`. -/
structure Engine (V : Type) where
  OpenFileDialog : Except String String
  Open : String → Except String Handle
  Ping : Handle → Option String
  Close : Handle → Option String
  Query : Handle → String → Except String (Rows V)
  Prepare : Handle → String → Option String
  StmtExec : Handle → String → List String → Option String
  Exec : Handle → String → List String → Option String
  Sprintf_v : V → String

/-- A call that reaches a collaborator, with what is handed to it. -/
inductive Call where
  | OpenFileDialog
  | Open (path : String)
  | Ping (db : Handle)
  | Close (db : Handle)
  | Query (db : Handle) (query : String)
  | RowsClose (db : Handle) (query : String)
  | Prepare (db : Handle) (query : String)
  | StmtExec (db : Handle) (query : String) (args : List String)
  | StmtClose (db : Handle) (query : String)
  | Exec (db : Handle) (query : String) (args : List String)
deriving DecidableEq

/-- The statement text a call hands over, when it hands one over. -/
def Call.text : Call → Option String
  | .Query _ q => some q
  | .Prepare _ q => some q
  | .StmtExec _ q _ => some q
  | .Exec _ q _ => some q
  | _ => none

/-- The values a call binds to its statement. -/
def Call.args : Call → List String
  | .StmtExec _ _ args => args
  | .Exec _ _ args => args
  | _ => []

/-! ## The data model of `app.go` -/

/-- Type `Column` (lines 14-20). -/
structure Column where
  Name : String
  Type_ : String
  NotNull : Bool
  DefaultValue : String
  PrimaryKey : Bool
deriving DecidableEq

/-- Type `QueryResult` (lines 23-26). -/
structure QueryResult where
  Columns : List String
  Rows : List (List String)
deriving DecidableEq

/-- Type `App` (lines 29-33): the handle slot `db` (`none` is the nil pointer) and `dbPath`.
The field `ctx` is only ever passed to the runtime and is left out. -/
structure App where
  db : Option Handle
  dbPath : String
deriving DecidableEq

/-- Function `NewApp` (line 36). -/
def NewApp : App := ⟨none, ""⟩

/-- What a method leaves behind: its return value (`Except` for a Go `(value, error)` or
`error`), the fields of the receiver, and the calls it made, in order. -/
structure Outcome (α : Type) where
  ret : Except String α
  app : App
  calls : List Call

/-- Type `sql.NullString`. -/
structure NullString where
  String_ : String
  Valid : Bool
deriving DecidableEq

/-- Method `(*sql.NullString).Scan`: NULL gives `{"", false}`, a text `s` gives `{s, true}`. -/
def NullString.Scan : Option String → NullString
  | none => ⟨"", false⟩
  | some s => ⟨s, true⟩

/-- Function `strings.Join`: nothing for no element, else the first element and then, for
each further one, the separator and the element. -/
def strings.Join : List String → String → String
  | [], _ => ""
  | e :: rest, sep => rest.foldl (fun b s => b ++ sep ++ s) e

/-- The cells `values` after `rows.Scan(valuePtrs...)` stored `stored` through the pointers
`&values[i]`: cell `i` holds `stored[i]`; the slice keeps its length. -/
def storeThrough {V : Type} : List (Option V) → List (Option V) → List (Option V)
  | [], _ => []
  | v :: vs, [] => v :: vs
  | _ :: vs, s :: ss => s :: storeThrough vs ss

/-! ## Connection manager -/

/-- Method `App.OpenDatabase` (lines 47-95). -/
def OpenDatabase {V : Type} (eng : Engine V) (a : App) : Outcome String :=
  let closing : List Call :=
    match a.db with
    | some db => [.Close db]
    | none => []
  match eng.OpenFileDialog with
  | .error err => ⟨.error ("failed to open file dialog: " ++ err), a, closing ++ [.OpenFileDialog]⟩
  | .ok path =>
    if path = "" then
      ⟨.error "no file selected", a, closing ++ [.OpenFileDialog]⟩
    else
      match eng.Open path with
      | .error err =>
        ⟨.error ("failed to open database: " ++ err), a, closing ++ [.OpenFileDialog, .Open path]⟩
      | .ok db =>
        match eng.Ping db with
        | some err =>
          ⟨.error ("failed to connect to database: " ++ err), a,
            closing ++ [.OpenFileDialog, .Open path, .Ping db]⟩
        | none =>
          ⟨.ok path, { db := some db, dbPath := path },
            closing ++ [.OpenFileDialog, .Open path, .Ping db]⟩

/-- Method `App.CloseDatabase` (lines 209-218). -/
def CloseDatabase {V : Type} (eng : Engine V) (a : App) : Outcome Unit :=
  match a.db with
  | none => ⟨.ok (), a, []⟩
  | some db =>
    let err := eng.Close db
    ⟨match err with | none => .ok () | some e => .error e, { db := none, dbPath := "" },
      [.Close db]⟩

/-- Method `App.GetDatabasePath` (lines 221-223). -/
def GetDatabasePath (a : App) : String :=
  a.dbPath

/-! ## Schema inspector -/

/-- The loop `for rows.Next()` of `GetTables` (lines 110-116) over the rows still to come,
`tables` being the names appended so far. -/
def GetTables.loop {V : Type} : List (Row V) → List String → Except String (List String)
  | [], tables => .ok tables
  | r :: rest, tables =>
    match r.ScanName with
    | .error err => .error ("failed to scan table name: " ++ err)
    | .ok name => GetTables.loop rest (tables ++ [name])

/-- Method `App.GetTables` (lines 98-119). -/
def GetTables {V : Type} (eng : Engine V) (a : App) : Outcome (List String) :=
  match a.db with
  | none => ⟨.error "no database open", a, []⟩
  | some db =>
    let query := "SELECT name FROM sqlite_master WHERE type='table' ORDER BY name"
    match eng.Query db query with
    | .error err => ⟨.error ("failed to query tables: " ++ err), a, [.Query db query]⟩
    | .ok rows => ⟨GetTables.loop rows.Next [], a, [.Query db query, .RowsClose db query]⟩

/-- The body of the loop of `GetTableSchema` after a successful `Scan` (lines 137-149):
`col` starts as the zero `Column`, `Scan` fills `Name`, `Type` and `NotNull`, and the
default is copied only from a valid `dfltValue`. -/
def GetTableSchema.column (info : TableInfo) : Column :=
  let dfltValue := NullString.Scan info.dflt_value
  { Name := info.name
    Type_ := info.type
    NotNull := info.notnull
    PrimaryKey := decide (info.pk > 0)
    DefaultValue := if dfltValue.Valid then dfltValue.String_ else "" }

/-- The loop `for rows.Next()` of `GetTableSchema` (lines 136-152). -/
def GetTableSchema.loop {V : Type} : List (Row V) → List Column → Except String (List Column)
  | [], columns => .ok columns
  | r :: rest, columns =>
    match r.ScanInfo with
    | .error err => .error ("failed to scan column info: " ++ err)
    | .ok info => GetTableSchema.loop rest (columns ++ [GetTableSchema.column info])

/-- Method `App.GetTableSchema` (lines 122-155). -/
def GetTableSchema {V : Type} (eng : Engine V) (a : App) (tableName : String) :
    Outcome (List Column) :=
  match a.db with
  | none => ⟨.error "no database open", a, []⟩
  | some db =>
    let query := "PRAGMA table_info(" ++ tableName ++ ")"
    match eng.Query db query with
    | .error err => ⟨.error ("failed to query table schema: " ++ err), a, [.Query db query]⟩
    | .ok rows => ⟨GetTableSchema.loop rows.Next [], a, [.Query db query, .RowsClose db query]⟩

/-! ## Query executor -/

/-- The loop `for i, val := range values` of `ExecuteQuery` (lines 195-201): `i` is the
index reached, `row` the slice written so far. -/
def ExecuteQuery.marshal {V : Type} (eng : Engine V) :
    Nat → List (Option V) → List String → List String
  | _, [], row => row
  | i, val :: rest, row =>
    ExecuteQuery.marshal eng (i + 1) rest
      (row.set i (match val with
        | none => "NULL"
        | some v => eng.Sprintf_v v))

/-- The loop `for rows.Next()` of `ExecuteQuery` (lines 183-203), `acc` being `result.Rows`. -/
def ExecuteQuery.loop {V : Type} (eng : Engine V) (columns : List String) :
    List (Row V) → List (List String) → Except String (List (List String))
  | [], acc => .ok acc
  | r :: rest, acc =>
    let values : List (Option V) := List.replicate columns.length none
    match r.ScanValues with
    | .error err => .error ("failed to scan row: " ++ err)
    | .ok stored =>
      let values := storeThrough values stored
      let row := List.replicate columns.length ""
      let row := ExecuteQuery.marshal eng 0 values row
      ExecuteQuery.loop eng columns rest (acc ++ [row])

/-- Method `App.ExecuteQuery` (lines 158-206). -/
def ExecuteQuery {V : Type} (eng : Engine V) (a : App) (query : String) : Outcome QueryResult :=
  match a.db with
  | none => ⟨.error "no database open", a, []⟩
  | some db =>
    if !strings.HasPrefix (strings.TrimSpace (strings.ToUpper query)) "SELECT" then
      ⟨.error "only SELECT queries are supported", a, []⟩
    else
      match eng.Query db query with
      | .error err => ⟨.error ("failed to execute query: " ++ err), a, [.Query db query]⟩
      | .ok rows =>
        match rows.Columns with
        | .error err =>
          ⟨.error ("failed to get columns: " ++ err), a, [.Query db query, .RowsClose db query]⟩
        | .ok columns =>
          match ExecuteQuery.loop eng columns rows.Next [] with
          | .error err => ⟨.error err, a, [.Query db query, .RowsClose db query]⟩
          | .ok rs => ⟨.ok ⟨columns, rs⟩, a, [.Query db query, .RowsClose db query]⟩

/-- The loop `for i, val := range values` of `GetTableData` (lines 261-267). -/
def GetTableData.marshal {V : Type} (eng : Engine V) :
    Nat → List (Option V) → List String → List String
  | _, [], row => row
  | i, val :: rest, row =>
    GetTableData.marshal eng (i + 1) rest
      (row.set i (match val with
        | none => "NULL"
        | some v => eng.Sprintf_v v))

/-- The loop `for rows.Next()` of `GetTableData` (lines 249-269). -/
def GetTableData.loop {V : Type} (eng : Engine V) (columns : List String) :
    List (Row V) → List (List String) → Except String (List (List String))
  | [], acc => .ok acc
  | r :: rest, acc =>
    let values : List (Option V) := List.replicate columns.length none
    match r.ScanValues with
    | .error err => .error ("failed to scan row: " ++ err)
    | .ok stored =>
      let values := storeThrough values stored
      let row := List.replicate columns.length ""
      let row := GetTableData.marshal eng 0 values row
      GetTableData.loop eng columns rest (acc ++ [row])

/-- Method `App.GetTableData` (lines 226-272). -/
def GetTableData {V : Type} (eng : Engine V) (a : App) (tableName : String) :
    Outcome QueryResult :=
  match a.db with
  | none => ⟨.error "no database open", a, []⟩
  | some db =>
    let query := "SELECT * FROM " ++ tableName
    match eng.Query db query with
    | .error err => ⟨.error ("failed to query table data: " ++ err), a, [.Query db query]⟩
    | .ok rows =>
      match rows.Columns with
      | .error err =>
        ⟨.error ("failed to get columns: " ++ err), a, [.Query db query, .RowsClose db query]⟩
      | .ok columns =>
        match GetTableData.loop eng columns rows.Next [] with
        | .error err => ⟨.error err, a, [.Query db query, .RowsClose db query]⟩
        | .ok rs => ⟨.ok ⟨columns, rs⟩, a, [.Query db query, .RowsClose db query]⟩

/-! ## Mutation builder -/

/-- Method `App.InsertRow` (lines 275-304). -/
def InsertRow {V : Type} (eng : Engine V) (a : App) (tableName : String)
    (values : List String) : Outcome Unit :=
  match a.db with
  | none => ⟨.error "no database open", a, []⟩
  | some db =>
    let placeholders := (List.replicate values.length "").map fun _ => "?"
    let query := "INSERT INTO " ++ tableName ++ " VALUES (" ++ strings.Join placeholders "," ++ ")"
    match eng.Prepare db query with
    | some err => ⟨.error ("failed to prepare insert statement: " ++ err), a, [.Prepare db query]⟩
    | none =>
      let args := values
      match eng.StmtExec db query args with
      | some err =>
        ⟨.error ("failed to insert row: " ++ err), a,
          [.Prepare db query, .StmtExec db query args, .StmtClose db query]⟩
      | none => ⟨.ok (), a, [.Prepare db query, .StmtExec db query args, .StmtClose db query]⟩

/-- Method `App.UpdateRow` (lines 307-320). -/
def UpdateRow {V : Type} (eng : Engine V) (a : App) (tableName column value whereColumn
    whereValue : String) : Outcome Unit :=
  match a.db with
  | none => ⟨.error "no database open", a, []⟩
  | some db =>
    let query := "UPDATE " ++ tableName ++ " SET " ++ column ++ " = ? WHERE " ++ whereColumn ++ " = ?"
    match eng.Exec db query [value, whereValue] with
    | some err => ⟨.error ("failed to update row: " ++ err), a, [.Exec db query [value, whereValue]]⟩
    | none => ⟨.ok (), a, [.Exec db query [value, whereValue]]⟩

/-- Method `App.DeleteRow` (lines 323-336). -/
def DeleteRow {V : Type} (eng : Engine V) (a : App) (tableName whereColumn whereValue : String) :
    Outcome Unit :=
  match a.db with
  | none => ⟨.error "no database open", a, []⟩
  | some db =>
    let query := "DELETE FROM " ++ tableName ++ " WHERE " ++ whereColumn ++ " = ?"
    match eng.Exec db query [whereValue] with
    | some err => ⟨.error ("failed to delete row: " ++ err), a, [.Exec db query [whereValue]]⟩
    | none => ⟨.ok (), a, [.Exec db query [whereValue]]⟩

/-! ## Definitions used to state the properties -/

namespace unicode

/-- The ranges are well formed, ascending and disjoint. -/
def rangesSorted : List CaseRange → Bool
  | [] => true
  | [a] => decide (a.Lo ≤ a.Hi)
  | a :: b :: rest => decide (a.Lo ≤ a.Hi) && decide (a.Hi < b.Lo) && rangesSorted (b :: rest)

/-- The interval `[lo, hi]` holds no ASCII rune and no space. -/
def clearInterval (lo hi : Nat) : Bool :=
  decide (128 ≤ lo) &&
    ([0x85, 0xA0, 0x1680, 0x2028, 0x2029, 0x202F, 0x205F, 0x3000].all fun p =>
      decide (p < lo) || decide (hi < p)) &&
    (decide (hi < 0x2000) || decide (0x200A < lo))

/-- Neither the range nor its upper-case image holds an ASCII rune or a space. -/
def rangeClear (cr : CaseRange) : Bool :=
  clearInterval cr.Lo cr.Hi &&
    (decide (cr.Delta > (MaxRune : Int)) ||
      (decide (0 ≤ (cr.Lo : Int) + cr.Delta) &&
        clearInterval ((cr.Lo : Int) + cr.Delta).toNat ((cr.Hi : Int) + cr.Delta).toNat))

/-- Every range of the table is clear, but for the two ASCII ranges and the single runes
U+0131 (dotless i) and U+017F (long s). -/
def tableClear (tbl : List CaseRange) : Bool :=
  tbl.all fun cr =>
    rangeClear cr || decide (cr.Hi < 128) ||
      (decide (cr.Lo = cr.Hi) && (decide (cr.Lo = 0x131) || decide (cr.Lo = 0x17F)))

end unicode

namespace strings

/-- What `Map(unicode.ToUpper, s)` writes for the rune `c`. -/
def upperChar (c : Char) : Char :=
  runeToChar (unicode.ToUpper c.toNat)

/-- The test `unicode.IsSpace` on a character of a string. -/
def isSpaceChar (c : Char) : Bool :=
  unicode.IsSpace c.toNat

end strings

/-- The policy test of `ExecuteQuery` (line 163) on `query`. -/
def passesPolicy (query : String) : Bool :=
  strings.HasPrefix (strings.TrimSpace (strings.ToUpper query)) "SELECT"

/-- The six letters S, E, L, E, C, T, each in upper or lower case, at the head of a text. -/
def isKeyword : List Char → Bool
  | c1 :: c2 :: c3 :: c4 :: c5 :: c6 :: _ =>
    (c1 == 'S' || c1 == 's') && (c2 == 'E' || c2 == 'e') && (c3 == 'L' || c3 == 'l') &&
      (c4 == 'E' || c4 == 'e') && (c5 == 'C' || c5 == 'c') && (c6 == 'T' || c6 == 't')
  | _ => false

/-- The same with the one more first character the code lets pass: U+017F, the long s,
whose upper-case form is `S`. -/
def isKeywordOrLongS : List Char → Bool
  | c1 :: c2 :: c3 :: c4 :: c5 :: c6 :: _ =>
    (c1 == 'S' || c1 == 's' || c1 == Char.ofNat 0x17F) && (c2 == 'E' || c2 == 'e') &&
      (c3 == 'L' || c3 == 'l') && (c4 == 'E' || c4 == 'e') && (c5 == 'C' || c5 == 'c') &&
      (c6 == 'T' || c6 == 't')
  | _ => false

/-- The property of an accepted query in the words of the specification: the raw query, its
leading whitespace removed, begins with six characters that are the ASCII letters
S, E, L, E, C, T, each in upper or lower case. -/
def startsWithKeyword (query : String) : Bool :=
  isKeyword (query.data.dropWhile strings.isSpaceChar)

/-- The property of an accepted query as the code has it: the first of the six characters
may also be U+017F. -/
def startsWithKeywordOrLongS (query : String) : Bool :=
  isKeywordOrLongS (query.data.dropWhile strings.isSpaceChar)

/-- The marshaling rule in the words of the specification: the absence-marker renders as
`NULL`, any other value by its default string conversion. -/
def render {V : Type} (eng : Engine V) : Option V → String
  | none => "NULL"
  | some v => eng.Sprintf_v v

/-- The rows `ExecuteQuery` and `GetTableData` build from a cursor, written as a map: the
first failing `Scan` ends the call, every other row is the rendering of the `len(columns)`
cells the `Scan` stored into. -/
def marshalRows {V : Type} (eng : Engine V) (n : Nat) :
    List (Row V) → Except String (List (List String))
  | [] => .ok []
  | r :: rest =>
    match r.ScanValues with
    | .error err => .error ("failed to scan row: " ++ err)
    | .ok stored =>
      match marshalRows eng n rest with
      | .error e => .error e
      | .ok rs => .ok ((storeThrough (List.replicate n none) stored).map (render eng) :: rs)

/-- What both read paths return once the engine has accepted the statement: the column
names of the cursor and its rows, marshaled. -/
def readResult {V : Type} (eng : Engine V) (rows : Rows V) : Except String QueryResult :=
  match rows.Columns with
  | .error err => .error ("failed to get columns: " ++ err)
  | .ok columns =>
    match marshalRows eng columns.length rows.Next with
    | .error e => .error e
    | .ok rs => .ok ⟨columns, rs⟩

/-- A cursor over the columns `id`, `name` with the one row `(1, NULL)`. -/
def demoRows : Rows String :=
  { Columns := .ok ["id", "name"]
    Next := [{ ScanName := .ok "users"
               ScanInfo := .ok ⟨0, "id", "INTEGER", false, none, 1⟩
               ScanValues := .ok [some "1", none] }] }

/-- An engine on which every call succeeds: the dialog gives `/data/app.db`, opened as
handle 1, and every query yields `demoRows`; the driver values are texts. -/
def demoEngine : Engine String :=
  { OpenFileDialog := .ok "/data/app.db"
    Open := fun _ => .ok 1
    Ping := fun _ => none
    Close := fun _ => none
    Query := fun _ _ => .ok demoRows
    Prepare := fun _ _ => none
    StmtExec := fun _ _ _ => none
    Exec := fun _ _ _ => none
    Sprintf_v := fun s => s }

/-- An engine whose user cancels the file dialog, whose close reports an error and which
refuses every statement. -/
def refusingEngine : Engine String :=
  { OpenFileDialog := .ok ""
    Open := fun _ => .error "unknown driver"
    Ping := fun _ => some "unable to open database file"
    Close := fun _ => some "close failed"
    Query := fun _ _ => .error "no such table: t"
    Prepare := fun _ _ => some "no such table: t"
    StmtExec := fun _ _ _ => some "constraint failed"
    Exec := fun _ _ _ => some "no such table: t"
    Sprintf_v := fun s => s }

/-- The states of the receiver the program can be in: `NewApp()`, and what any exported
method leaves behind from such a state, whatever the collaborators answer. -/
inductive Reachable (V : Type) : App → Prop
  | newApp : Reachable V NewApp
  | openDatabase (eng : Engine V) (a : App) : Reachable V a → Reachable V (OpenDatabase eng a).app
  | closeDatabase (eng : Engine V) (a : App) :
      Reachable V a → Reachable V (CloseDatabase eng a).app
  | getTables (eng : Engine V) (a : App) : Reachable V a → Reachable V (GetTables eng a).app
  | getTableSchema (eng : Engine V) (a : App) (tableName : String) :
      Reachable V a → Reachable V (GetTableSchema eng a tableName).app
  | executeQuery (eng : Engine V) (a : App) (query : String) :
      Reachable V a → Reachable V (ExecuteQuery eng a query).app
  | getTableData (eng : Engine V) (a : App) (tableName : String) :
      Reachable V a → Reachable V (GetTableData eng a tableName).app
  | insertRow (eng : Engine V) (a : App) (tableName : String) (values : List String) :
      Reachable V a → Reachable V (InsertRow eng a tableName values).app
  | updateRow (eng : Engine V) (a : App) (tableName column value whereColumn
      whereValue : String) :
      Reachable V a →
        Reachable V (UpdateRow eng a tableName column value whereColumn whereValue).app
  | deleteRow (eng : Engine V) (a : App) (tableName whereColumn whereValue : String) :
      Reachable V a → Reachable V (DeleteRow eng a tableName whereColumn whereValue).app

/-- The statement of `InsertRow` in the words of the specification:
`INSERT INTO <tableName> VALUES (<list>)`, the list being `n` placeholders `?` separated by
commas. -/
def insertStatement (tableName : String) (n : Nat) : String :=
  "INSERT INTO " ++ tableName ++ " VALUES (" ++
    String.mk (List.intersperse ',' (List.replicate n '?')) ++ ")"

/-- The statement of `UpdateRow` in the words of the specification. -/
def updateStatement (tableName column whereColumn : String) : String :=
  "UPDATE " ++ tableName ++ " SET " ++ column ++ " = ? WHERE " ++ whereColumn ++ " = ?"

/-- The statement of `DeleteRow` in the words of the specification. -/
def deleteStatement (tableName whereColumn : String) : String :=
  "DELETE FROM " ++ tableName ++ " WHERE " ++ whereColumn ++ " = ?"

/-- The statement texts a method handed to the engine, in order. -/
def statementTexts (calls : List Call) : List String :=
  calls.filterMap Call.text

/-- The characters `,?` repeated `k` times. -/
def commaMarks : Nat → List Char
  | 0 => []
  | k + 1 => ',' :: '?' :: commaMarks k

/-- A row of `PRAGMA table_info` whose `Scan` at line 142 succeeds with `info`. -/
def infoRow {V : Type} (info : TableInfo) : Row V :=
  { ScanName := .error "sql: expected 6 destination arguments in Scan, not 1"
    ScanInfo := .ok info
    ScanValues := .error "not read" }

/-- An engine whose catalog reports one column `name TEXT NOT NULL` with the default
`dflt`. -/
def catalogEngine (dflt : Option String) : Engine String :=
  { demoEngine with
    Query := fun _ _ =>
      .ok { Columns := .ok ["cid", "name", "type", "notnull", "dflt_value", "pk"]
            Next := [infoRow ⟨1, "name", "TEXT", true, dflt, 0⟩] } }

/-! ## Facts about the library functions and the methods -/

namespace unicode

theorem IsSpace_iff (r : Nat) :
    IsSpace r = true ↔
      (9 ≤ r ∧ r ≤ 13) ∨ r = 32 ∨ r = 0x85 ∨ r = 0xA0 ∨ r = 0x1680 ∨ (0x2000 ≤ r ∧ r ≤ 0x200A) ∨
        r = 0x2028 ∨ r = 0x2029 ∨ r = 0x202F ∨ r = 0x205F ∨ r = 0x3000 := by
  unfold IsSpace
  split
  · rename_i h
    simp only [MaxLatin1] at h
    simp only [Bool.or_eq_true, beq_iff_eq]
    omega
  · rename_i h
    simp only [MaxLatin1] at h
    simp only [is16, White_Space, White_Space_LatinOffset, List.drop, List.any_cons, List.any_nil,
      Bool.or_false, Bool.or_eq_true, Bool.and_eq_true, decide_eq_true_eq, beq_iff_eq]
    omega

set_option maxRecDepth 100000 in
theorem CaseRanges_sorted : rangesSorted CaseRanges = true := by decide

theorem clearInterval_sound {lo hi n : Nat} (h : clearInterval lo hi = true) (h1 : lo ≤ n)
    (h2 : n ≤ hi) : 128 ≤ n ∧ IsSpace n = false := by
  simp only [clearInterval, List.all_cons, List.all_nil, Bool.and_true, Bool.and_eq_true,
    Bool.or_eq_true, decide_eq_true_eq] at h
  refine ⟨by omega, ?_⟩
  rw [Bool.eq_false_iff, Ne, IsSpace_iff]
  omega

theorem rangeClear_sound {cr : CaseRange} {r : Nat} (h : rangeClear cr = true) (h1 : cr.Lo ≤ r)
    (h2 : r ≤ cr.Hi) :
    IsSpace r = false ∧ 128 ≤ applyRange cr r ∧ IsSpace (applyRange cr r) = false := by
  simp only [rangeClear, Bool.and_eq_true, Bool.or_eq_true, decide_eq_true_eq] at h
  obtain ⟨hdom, himg⟩ := h
  refine ⟨(clearInterval_sound hdom h1 h2).2, ?_⟩
  unfold applyRange
  split
  · exact clearInterval_sound hdom (n := cr.Lo + (r - cr.Lo) / 2 * 2) (by omega) (by omega)
  · rename_i hd
    rcases himg with himg | ⟨hnn, himg⟩
    · exact absurd himg hd
    · exact clearInterval_sound himg (by omega) (by omega)

set_option maxRecDepth 100000 in
theorem CaseRanges_clear : tableClear CaseRanges = true := by decide

theorem to_clear (tbl : List CaseRange) (h : tableClear tbl = true) (r : Nat) (h128 : 128 ≤ r)
    (hi : r ≠ 0x131) (hs : r ≠ 0x17F) :
    to_ r tbl = r ∨ (IsSpace r = false ∧ 128 ≤ to_ r tbl ∧ IsSpace (to_ r tbl) = false) := by
  induction tbl with
  | nil => exact Or.inl rfl
  | cons cr rest ih =>
    simp only [tableClear, List.all_cons, Bool.and_eq_true, Bool.or_eq_true,
      decide_eq_true_eq] at h
    obtain ⟨hcr, hrest⟩ := h
    unfold to_
    split
    · rename_i hin
      rcases hcr with (hc | hc) | ⟨hc, hc2⟩
      · exact Or.inr (rangeClear_sound hc hin.1 hin.2)
      · omega
      · omega
    · exact ih (by simpa [tableClear] using hrest)

end unicode

namespace strings

theorem toNat_ofNat_valid {n : Nat} (h : n.isValidChar) : (Char.ofNat n).toNat = n := by
  rw [Char.ofNat, dif_pos h]
  rfl

theorem char_valid (c : Char) : c.toNat.isValidChar := c.valid

theorem char_eq_of_toNat_eq {c d : Char} (h : c.toNat = d.toNat) : c = d := by
  rw [← Char.ofNat_toNat c, ← Char.ofNat_toNat d, h]

theorem runeToChar_toNat (n : Nat) :
    (runeToChar n).toNat = if n.isValidChar then n else 0xFFFD := by
  unfold runeToChar
  split
  · rename_i h
    exact toNat_ofNat_valid h
  · exact toNat_ofNat_valid (by decide)

theorem upperChar_ascii {c : Char} (h : c.toNat < 128) :
    upperChar c = if 97 ≤ c.toNat ∧ c.toNat ≤ 122 then Char.ofNat (c.toNat - (97 - 65)) else c := by
  have hle : c.toNat ≤ unicode.MaxASCII := by simp only [unicode.MaxASCII]; omega
  unfold upperChar unicode.ToUpper
  rw [if_pos hle]
  split
  · rename_i hl
    unfold runeToChar
    rw [if_pos]
    left
    omega
  · unfold runeToChar
    rw [if_pos (char_valid c), Char.ofNat_toNat]

theorem upperChar_ascii_toNat {c : Char} (h : c.toNat < 128) :
    (upperChar c).toNat = if 97 ≤ c.toNat ∧ c.toNat ≤ 122 then c.toNat - 32 else c.toNat := by
  rw [upperChar_ascii h]
  split
  · exact toNat_ofNat_valid (Or.inl (by omega))
  · rfl

set_option maxRecDepth 100000 in
theorem to_dotless_i : unicode.to_ 0x131 unicode.CaseRanges = 0x49 := by decide

set_option maxRecDepth 100000 in
theorem to_long_s : unicode.to_ 0x17F unicode.CaseRanges = 0x53 := by decide

theorem isSpace_of_invalid {n : Nat} (h : ¬ n.isValidChar) : unicode.IsSpace n = false := by
  rw [Bool.eq_false_iff, Ne, unicode.IsSpace_iff]
  simp only [Nat.isValidChar] at h
  omega

/-- A non-ASCII rune other than U+0131 and U+017F has a non-ASCII upper-case form, and
one that is a space exactly when the rune is. -/
theorem upperChar_nonascii {c : Char} (h : 128 ≤ c.toNat) (hi : c.toNat ≠ 0x131)
    (hs : c.toNat ≠ 0x17F) :
    128 ≤ (upperChar c).toNat ∧
      unicode.IsSpace (upperChar c).toNat = unicode.IsSpace c.toNat := by
  have hgt : ¬ c.toNat ≤ unicode.MaxASCII := by simp only [unicode.MaxASCII]; omega
  unfold upperChar unicode.ToUpper
  rw [if_neg hgt, runeToChar_toNat]
  rcases unicode.to_clear _ unicode.CaseRanges_clear c.toNat h hi hs with heq | ⟨h1, h2, h3⟩
  · rw [heq, if_pos (char_valid c)]
    exact ⟨h, rfl⟩
  · split
    · exact ⟨h2, by rw [h3, h1]⟩
    · refine ⟨by omega, ?_⟩
      rw [h1]
      decide

theorem upperChar_dotless_i {c : Char} (h : c.toNat = 0x131) : (upperChar c).toNat = 0x49 := by
  unfold upperChar unicode.ToUpper
  rw [h, if_neg (by decide), to_dotless_i, runeToChar_toNat, if_pos (by decide)]

theorem upperChar_long_s {c : Char} (h : c.toNat = 0x17F) : (upperChar c).toNat = 0x53 := by
  unfold upperChar unicode.ToUpper
  rw [h, if_neg (by decide), to_long_s, runeToChar_toNat, if_pos (by decide)]

/-- Upper-casing keeps spaces spaces and the other runes other runes. -/
theorem isSpace_upperChar (c : Char) :
    unicode.IsSpace (upperChar c).toNat = unicode.IsSpace c.toNat := by
  by_cases h : c.toNat < 128
  · rw [upperChar_ascii_toNat h]
    split
    · rename_i hl
      have h1 : unicode.IsSpace (c.toNat - 32) = false := by
        rw [Bool.eq_false_iff, Ne, unicode.IsSpace_iff]; omega
      have h2 : unicode.IsSpace c.toNat = false := by
        rw [Bool.eq_false_iff, Ne, unicode.IsSpace_iff]; omega
      rw [h1, h2]
    · rfl
  · by_cases hi : c.toNat = 0x131
    · rw [upperChar_dotless_i hi, hi]; decide
    · by_cases hs : c.toNat = 0x17F
      · rw [upperChar_long_s hs, hs]; decide
      · exact (upperChar_nonascii (by omega) hi hs).2

/-- The runes whose upper-case form is the ASCII rune `x`: `x` itself when it is no
lower-case letter, its lower-case partner when `x` is an upper-case letter, U+0131 for `I`
and U+017F for `S`. -/
theorem upperChar_toNat_eq_ascii {c : Char} {x : Nat} (hx : x < 128)
    (h : (upperChar c).toNat = x) :
    (c.toNat = x ∧ ¬ (97 ≤ x ∧ x ≤ 122)) ∨ (c.toNat = x + 32 ∧ 65 ≤ x ∧ x ≤ 90) ∨
      (c.toNat = 0x131 ∧ x = 0x49) ∨ (c.toNat = 0x17F ∧ x = 0x53) := by
  by_cases hc : c.toNat < 128
  · rw [upperChar_ascii_toNat hc] at h
    split at h <;> omega
  · by_cases hi : c.toNat = 0x131
    · rw [upperChar_dotless_i hi] at h; omega
    · by_cases hs : c.toNat = 0x17F
      · rw [upperChar_long_s hs] at h; omega
      · have := (upperChar_nonascii (by omega) hi hs).1
        omega

/-- Function `strings.ToUpper` writes the upper-case form of every rune, on both of its
paths. -/
theorem ToUpper_data (s : String) : (ToUpper s).data = s.data.map upperChar := by
  unfold ToUpper
  split
  · rename_i hall
    rw [List.all_eq_true] at hall
    have hasc : ∀ c ∈ s.data, c.toNat < 128 := fun c hc => by simpa using hall c hc
    split
    · apply List.map_congr_left
      intro c hc
      rw [upperChar_ascii (hasc c hc)]
    · rename_i hany
      rw [Bool.not_eq_true, List.any_eq_false] at hany
      conv_lhs => rw [← List.map_id s.data]
      apply List.map_congr_left
      intro c hc
      have := hany c hc
      rw [upperChar_ascii (hasc c hc), if_neg (by simpa using this)]
      rfl
  · rfl

theorem TrimSpace_data (s : String) :
    (TrimSpace s).data = (s.data.dropWhile isSpaceChar).rdropWhile isSpaceChar := rfl

theorem HasPrefix_iff (s pre : String) :
    HasPrefix s pre = true ↔ ∃ t, s.data = pre.data ++ t := by
  unfold HasPrefix
  simp only [Bool.and_eq_true, decide_eq_true_eq, beq_iff_eq]
  constructor
  · rintro ⟨_, h⟩
    have e := List.take_append_drop pre.data.length s.data
    rw [h] at e
    exact ⟨s.data.drop pre.data.length, e.symm⟩
  · rintro ⟨t, h⟩
    rw [h]
    exact ⟨by simp, by simp⟩

theorem dropWhile_map_upperChar (l : List Char) :
    (l.map upperChar).dropWhile isSpaceChar = (l.dropWhile isSpaceChar).map upperChar := by
  induction l with
  | nil => rfl
  | cons c rest ih =>
    have hc : isSpaceChar (upperChar c) = isSpaceChar c := isSpace_upperChar c
    rw [List.map_cons, List.dropWhile_cons, List.dropWhile_cons, hc]
    split
    · exact ih
    · rfl

/-- What stands at the head of a trimmed string stands at the head of the string once its
leading spaces are cut. -/
theorem head_of_TrimSpace {s : String} {p t : List Char} (h : (TrimSpace s).data = p ++ t) :
    ∃ t2, s.data.dropWhile isSpaceChar = p ++ t2 := by
  rw [TrimSpace_data] at h
  obtain ⟨u, hu⟩ := List.rdropWhile_prefix isSpaceChar (l := s.data.dropWhile isSpaceChar)
  exact ⟨t ++ u, by rw [← hu, h, List.append_assoc]⟩

/-- Cutting trailing spaces keeps a head that does not end in a space. -/
theorem rdropWhile_keeps_head (a : List Char) (x : Char) (hx : isSpaceChar x = false)
    (b : List Char) : ∃ t, (a ++ x :: b).rdropWhile isSpaceChar = a ++ x :: t := by
  induction b using List.reverseRecOn with
  | nil =>
    refine ⟨[], ?_⟩
    rw [List.rdropWhile_concat_neg]
    simp [hx]
  | append_singleton b y ih =>
    obtain ⟨t, ht⟩ := ih
    have e : a ++ x :: (b ++ [y]) = (a ++ x :: b) ++ [y] := by simp
    rw [e, List.rdropWhile_concat]
    split
    · exact ⟨t, ht⟩
    · exact ⟨b ++ [y], by simp⟩

end strings

/-- The policy test of `ExecuteQuery` lets every full-table scan of `GetTableData` pass. -/
theorem select_star_passes (tableName : String) :
    strings.HasPrefix (strings.TrimSpace (strings.ToUpper ("SELECT * FROM " ++ tableName)))
      "SELECT" = true := by
  rw [strings.HasPrefix_iff, strings.TrimSpace_data, strings.ToUpper_data, String.data_append,
    List.map_append]
  have h1 : "SELECT * FROM ".data.map strings.upperChar = "SELECT".data ++ " * FROM ".data := by
    decide
  rw [h1]
  have h2 : ("SELECT".data ++ " * FROM ".data ++ tableName.data.map strings.upperChar).dropWhile
      strings.isSpaceChar
      = "SELEC".data ++ 'T' :: (" * FROM ".data ++ tableName.data.map strings.upperChar) := by
    have hS : strings.isSpaceChar 'S' = false := by decide
    show ('S' :: _).dropWhile strings.isSpaceChar = _
    rw [List.dropWhile_cons, hS]
    rfl
  rw [h2]
  obtain ⟨t, ht⟩ := strings.rdropWhile_keeps_head "SELEC".data 'T' (by decide)
    (" * FROM ".data ++ tableName.data.map strings.upperChar)
  exact ⟨t, by rw [ht]; rfl⟩

namespace strings

theorem char_eq_iff_toNat (c d : Char) : c = d ↔ c.toNat = d.toNat :=
  ⟨fun h => by rw [h], char_eq_of_toNat_eq⟩

/-- The runes whose upper-case form is a given ASCII capital: the capital, its small letter,
U+017F for `S` and U+0131 for `I`. -/
theorem upperChar_toNat_eq_capital (c : Char) (x : Nat) (hx : 65 ≤ x ∧ x ≤ 90) :
    (upperChar c).toNat = x ↔
      c.toNat = x ∨ c.toNat = x + 32 ∨ (c.toNat = 0x17F ∧ x = 0x53) ∨
        (c.toNat = 0x131 ∧ x = 0x49) := by
  constructor
  · intro h
    have := upperChar_toNat_eq_ascii (by omega) h
    omega
  · rintro (h | h | ⟨h, hx2⟩ | ⟨h, hx2⟩)
    · rw [upperChar_ascii_toNat (by omega), if_neg (by omega), h]
    · rw [upperChar_ascii_toNat (by omega), if_pos (by omega), h]
      omega
    · rw [upperChar_long_s h, hx2]
    · rw [upperChar_dotless_i h, hx2]

theorem upperChar_eq_S (c : Char) :
    upperChar c = 'S' ↔ (c = 'S' ∨ c = 's') ∨ c = Char.ofNat 0x17F := by
  rw [char_eq_iff_toNat, char_eq_iff_toNat c, char_eq_iff_toNat c, char_eq_iff_toNat c,
    show ('S' : Char).toNat = 83 from rfl, show ('s' : Char).toNat = 115 from rfl,
    show (Char.ofNat 0x17F).toNat = 0x17F from rfl,
    upperChar_toNat_eq_capital c 83 (by omega)]
  omega

theorem upperChar_eq_E (c : Char) : upperChar c = 'E' ↔ c = 'E' ∨ c = 'e' := by
  rw [char_eq_iff_toNat, char_eq_iff_toNat c, char_eq_iff_toNat c,
    show ('E' : Char).toNat = 69 from rfl, show ('e' : Char).toNat = 101 from rfl,
    upperChar_toNat_eq_capital c 69 (by omega)]
  omega

theorem upperChar_eq_L (c : Char) : upperChar c = 'L' ↔ c = 'L' ∨ c = 'l' := by
  rw [char_eq_iff_toNat, char_eq_iff_toNat c, char_eq_iff_toNat c,
    show ('L' : Char).toNat = 76 from rfl, show ('l' : Char).toNat = 108 from rfl,
    upperChar_toNat_eq_capital c 76 (by omega)]
  omega

theorem upperChar_eq_C (c : Char) : upperChar c = 'C' ↔ c = 'C' ∨ c = 'c' := by
  rw [char_eq_iff_toNat, char_eq_iff_toNat c, char_eq_iff_toNat c,
    show ('C' : Char).toNat = 67 from rfl, show ('c' : Char).toNat = 99 from rfl,
    upperChar_toNat_eq_capital c 67 (by omega)]
  omega

theorem upperChar_eq_T (c : Char) : upperChar c = 'T' ↔ c = 'T' ∨ c = 't' := by
  rw [char_eq_iff_toNat, char_eq_iff_toNat c, char_eq_iff_toNat c,
    show ('T' : Char).toNat = 84 from rfl, show ('t' : Char).toNat = 116 from rfl,
    upperChar_toNat_eq_capital c 84 (by omega)]
  omega

end strings

theorem passesPolicy_iff (query : String) :
    passesPolicy query = true ↔
      ∃ c1 c2 c3 c4 c5 c6 rest,
        query.data.dropWhile strings.isSpaceChar = c1 :: c2 :: c3 :: c4 :: c5 :: c6 :: rest ∧
        strings.upperChar c1 = 'S' ∧ strings.upperChar c2 = 'E' ∧ strings.upperChar c3 = 'L' ∧
        strings.upperChar c4 = 'E' ∧ strings.upperChar c5 = 'C' ∧ strings.upperChar c6 = 'T' := by
  unfold passesPolicy
  rw [strings.HasPrefix_iff]
  constructor
  · rintro ⟨t, ht⟩
    obtain ⟨t2, h2⟩ := strings.head_of_TrimSpace ht
    rw [strings.ToUpper_data, strings.dropWhile_map_upperChar] at h2
    have h3 : (query.data.dropWhile strings.isSpaceChar).map strings.upperChar
        = 'S' :: 'E' :: 'L' :: 'E' :: 'C' :: 'T' :: t2 := h2
    match hq : query.data.dropWhile strings.isSpaceChar, h3 with
    | c1 :: c2 :: c3 :: c4 :: c5 :: c6 :: rest, h3 =>
      simp only [List.map_cons, List.cons.injEq] at h3
      exact ⟨c1, c2, c3, c4, c5, c6, rest, rfl, h3.1, h3.2.1, h3.2.2.1, h3.2.2.2.1,
        h3.2.2.2.2.1, h3.2.2.2.2.2.1⟩
    | [], h3 => simp at h3
    | [_], h3 => simp at h3
    | [_, _], h3 => simp at h3
    | [_, _, _], h3 => simp at h3
    | [_, _, _, _], h3 => simp at h3
    | [_, _, _, _, _], h3 => simp at h3
  · rintro ⟨c1, c2, c3, c4, c5, c6, rest, hq, h1, h2, h3, h4, h5, h6⟩
    rw [strings.TrimSpace_data, strings.ToUpper_data, strings.dropWhile_map_upperChar, hq]
    simp only [List.map_cons, h1, h2, h3, h4, h5, h6]
    obtain ⟨t, ht⟩ := strings.rdropWhile_keeps_head "SELEC".data 'T' (by decide)
      (rest.map strings.upperChar)
    exact ⟨t, ht⟩

theorem append_ne_of_head {a c : String} (b : String) {x y : Char}
    (ha : a.data.head? = some x) (hc : c.data.head? = some y) (hxy : x ≠ y) : a ++ b ≠ c := by
  intro e
  have h := congrArg (fun s => s.data.head?) e
  simp only [String.data_append] at h
  cases hd : a.data with
  | nil => rw [hd] at ha; simp at ha
  | cons z zs =>
    rw [hd] at ha h
    simp only [List.cons_append, List.head?_cons, Option.some.injEq] at ha h
    rw [hc, ha] at h
    exact hxy (Option.some.inj h)

theorem append_left_ne {a c : String} (b : String) {x y : Char}
    (ha : a.data.head? = some x) (hc : c.data.head? = some y) (hxy : x ≠ y) :
    a ++ b ≠ c ++ b := by
  intro e
  have h := congrArg (fun s => s.data.head?) e
  simp only [String.data_append] at h
  cases hd : a.data with
  | nil => rw [hd] at ha; simp at ha
  | cons z zs =>
    cases hd2 : c.data with
    | nil => rw [hd2] at hc; simp at hc
    | cons w ws =>
      rw [hd] at ha h
      rw [hd2] at hc h
      simp only [List.cons_append, List.head?_cons, Option.some.injEq] at ha hc h
      exact hxy (by rw [← ha, ← hc, h])

theorem storeThrough_length {V : Type} (values stored : List (Option V)) :
    (storeThrough values stored).length = values.length := by
  induction values generalizing stored with
  | nil => rfl
  | cons v vs ih =>
    cases stored with
    | nil => rfl
    | cons s ss => simp [storeThrough, ih]

theorem take_succ_set {α : Type} (row : List α) (i : Nat) (x : α) (h : i < row.length) :
    (row.set i x).take (i + 1) = row.take i ++ [x] := by
  induction row generalizing i with
  | nil => simp at h
  | cons a l ih =>
    cases i with
    | zero => simp
    | succ j =>
      simp only [List.length_cons] at h
      simp only [List.set_cons_succ, List.take_succ_cons, List.cons_append, List.cons.injEq,
        true_and]
      exact ih j (by omega)

theorem ExecuteQuery_marshal_from {V : Type} (eng : Engine V) (values : List (Option V)) :
    ∀ (i : Nat) (row : List String), row.length = i + values.length →
      ExecuteQuery.marshal eng i values row = row.take i ++ values.map (render eng) := by
  induction values with
  | nil =>
    intro i row h
    simp only [ExecuteQuery.marshal, List.map_nil, List.append_nil]
    rw [List.take_of_length_le (by simp at h; omega)]
  | cons val rest ih =>
    intro i row h
    simp only [List.length_cons] at h
    simp only [ExecuteQuery.marshal]
    rw [ih (i + 1) _ (by rw [List.length_set]; omega)]
    have hi : i < row.length := by omega
    rw [take_succ_set row i _ hi]
    cases val <;> simp [render]

theorem GetTableData_marshal_eq {V : Type} (eng : Engine V) (values : List (Option V)) :
    ∀ (i : Nat) (row : List String),
      GetTableData.marshal eng i values row = ExecuteQuery.marshal eng i values row := by
  induction values with
  | nil => intro i row; rfl
  | cons val rest ih =>
    intro i row
    simp only [GetTableData.marshal, ExecuteQuery.marshal]
    rw [ih]

theorem GetTableData_loop_eq {V : Type} (eng : Engine V) (columns : List String)
    (rows : List (Row V)) :
    ∀ acc, GetTableData.loop eng columns rows acc = ExecuteQuery.loop eng columns rows acc := by
  induction rows with
  | nil => intro acc; rfl
  | cons r rest ih =>
    intro acc
    rw [GetTableData.loop, ExecuteQuery.loop]
    cases r.ScanValues with
    | error err => rfl
    | ok stored =>
      simp only
      rw [GetTableData_marshal_eq, ih]

theorem ExecuteQuery_marshal_eq_map {V : Type} (eng : Engine V) (values : List (Option V)) :
    ExecuteQuery.marshal eng 0 values (List.replicate values.length "")
      = values.map (render eng) := by
  rw [ExecuteQuery_marshal_from eng values 0 _ (by simp)]
  simp

theorem ExecuteQuery_loop_eq {V : Type} (eng : Engine V) (columns : List String)
    (rows : List (Row V)) :
    ∀ acc, ExecuteQuery.loop eng columns rows acc
      = match marshalRows eng columns.length rows with
        | .error e => .error e
        | .ok rs => .ok (acc ++ rs) := by
  induction rows with
  | nil => intro acc; simp [ExecuteQuery.loop, marshalRows]
  | cons r rest ih =>
    intro acc
    rw [ExecuteQuery.loop, marshalRows]
    cases r.ScanValues with
    | error err => rfl
    | ok stored =>
      simp only
      rw [ih]
      have hlen : columns.length
          = (storeThrough (List.replicate columns.length (none : Option V)) stored).length := by
        rw [storeThrough_length, List.length_replicate]
      have hm : ExecuteQuery.marshal eng 0
            (storeThrough (List.replicate columns.length none) stored)
            (List.replicate columns.length "")
          = (storeThrough (List.replicate columns.length none) stored).map (render eng) := by
        conv_lhs => rw [hlen]
        rw [storeThrough_length, List.length_replicate]
        have := ExecuteQuery_marshal_eq_map eng
          (storeThrough (List.replicate columns.length none) stored)
        rw [storeThrough_length, List.length_replicate] at this
        exact this
      rw [hm]
      cases marshalRows eng columns.length rest with
      | error e => rfl
      | ok rs => simp

theorem marshalRows_length {V : Type} (eng : Engine V) (n : Nat) (rows : List (Row V)) :
    ∀ rs, marshalRows eng n rows = .ok rs → ∀ row ∈ rs, row.length = n := by
  induction rows with
  | nil =>
    intro rs h row hrow
    simp only [marshalRows, Except.ok.injEq] at h
    rw [← h] at hrow
    simp at hrow
  | cons r rest ih =>
    intro rs h row hrow
    rw [marshalRows] at h
    cases hs : r.ScanValues with
    | error err => rw [hs] at h; simp at h
    | ok stored =>
      rw [hs] at h
      simp only at h
      cases hr : marshalRows eng n rest with
      | error e => rw [hr] at h; simp at h
      | ok rs2 =>
        rw [hr] at h
        simp only [Except.ok.injEq] at h
        rw [← h] at hrow
        rcases List.mem_cons.mp hrow with h1 | h1
        · rw [h1, List.length_map, storeThrough_length, List.length_replicate]
        · exact ih rs2 hr row h1

theorem marshalRows_error {V : Type} (eng : Engine V) (n : Nat) (rows : List (Row V)) :
    ∀ e, marshalRows eng n rows = .error e → ∃ err, e = "failed to scan row: " ++ err := by
  induction rows with
  | nil => intro e h; simp [marshalRows] at h
  | cons r rest ih =>
    intro e h
    rw [marshalRows] at h
    cases hs : r.ScanValues with
    | error err =>
      rw [hs] at h
      simp only [Except.error.injEq] at h
      exact ⟨err, h.symm⟩
    | ok stored =>
      rw [hs] at h
      simp only at h
      cases hr : marshalRows eng n rest with
      | error e2 =>
        rw [hr] at h
        simp only [Except.error.injEq] at h
        rw [← h]
        exact ih e2 hr
      | ok rs2 => rw [hr] at h; simp at h

theorem ExecuteQuery_run {V : Type} (eng : Engine V) (db : Handle) (path query : String)
    (hq : passesPolicy query = true) :
    ExecuteQuery eng ⟨some db, path⟩ query
      = match eng.Query db query with
        | .error err => ⟨.error ("failed to execute query: " ++ err), ⟨some db, path⟩,
            [.Query db query]⟩
        | .ok rows => ⟨readResult eng rows, ⟨some db, path⟩,
            [.Query db query, .RowsClose db query]⟩ := by
  unfold passesPolicy at hq
  unfold ExecuteQuery
  simp only [hq, Bool.not_true, Bool.false_eq_true, ↓reduceIte]
  cases eng.Query db query with
  | error err => rfl
  | ok rows =>
    simp only [readResult]
    cases rows.Columns with
    | error err => rfl
    | ok columns =>
      simp only
      rw [ExecuteQuery_loop_eq]
      cases marshalRows eng columns.length rows.Next with
      | error e => rfl
      | ok rs => simp

theorem GetTableData_run {V : Type} (eng : Engine V) (db : Handle) (path tableName : String) :
    GetTableData eng ⟨some db, path⟩ tableName
      = match eng.Query db ("SELECT * FROM " ++ tableName) with
        | .error err => ⟨.error ("failed to query table data: " ++ err), ⟨some db, path⟩,
            [.Query db ("SELECT * FROM " ++ tableName)]⟩
        | .ok rows => ⟨readResult eng rows, ⟨some db, path⟩,
            [.Query db ("SELECT * FROM " ++ tableName),
              .RowsClose db ("SELECT * FROM " ++ tableName)]⟩ := by
  unfold GetTableData
  simp only
  cases eng.Query db ("SELECT * FROM " ++ tableName) with
  | error err => rfl
  | ok rows =>
    simp only [readResult]
    cases rows.Columns with
    | error err => rfl
    | ok columns =>
      simp only
      rw [GetTableData_loop_eq, ExecuteQuery_loop_eq]
      cases marshalRows eng columns.length rows.Next with
      | error e => rfl
      | ok rs => simp

theorem readResult_lengths {V : Type} (eng : Engine V) (rows : Rows V) (res : QueryResult)
    (h : readResult eng rows = .ok res) : ∀ row ∈ res.Rows, row.length = res.Columns.length := by
  unfold readResult at h
  cases hc : rows.Columns with
  | error err => rw [hc] at h; simp at h
  | ok columns =>
    rw [hc] at h
    simp only at h
    cases hm : marshalRows eng columns.length rows.Next with
    | error e => rw [hm] at h; simp at h
    | ok rs =>
      rw [hm] at h
      simp only [Except.ok.injEq] at h
      rw [← h]
      exact marshalRows_length eng columns.length rows.Next rs hm

theorem readResult_error {V : Type} (eng : Engine V) (rows : Rows V) (e : String)
    (h : readResult eng rows = .error e) : e ≠ "only SELECT queries are supported" := by
  unfold readResult at h
  cases hc : rows.Columns with
  | error err =>
    rw [hc] at h
    simp only [Except.error.injEq] at h
    rw [← h]
    exact append_ne_of_head err (x := 'f') (y := 'o') rfl rfl (by decide)
  | ok columns =>
    rw [hc] at h
    simp only at h
    cases hm : marshalRows eng columns.length rows.Next with
    | error e2 =>
      rw [hm] at h
      simp only [Except.error.injEq] at h
      obtain ⟨err, he⟩ := marshalRows_error eng columns.length rows.Next e2 hm
      rw [← h, he]
      exact append_ne_of_head err (x := 'f') (y := 'o') rfl rfl (by decide)
    | ok rs => rw [hm] at h; simp at h

/-- C1: with a handle open, `ExecuteQuery` answers a query whose trimmed, upper-cased form
does not start with `SELECT` with the error `only SELECT queries are supported`, makes no
call and leaves the connection fields as they were; a query whose form does start with
`SELECT` never gets that error and its text is handed to the engine's `Query` unchanged.
`"  select * from t"` and `"SELECTfoo"` pass the test and reach the engine,
`"DELETE FROM t"` is rejected. -/
theorem ExecuteQuery_select_only {V : Type} (eng : Engine V) (db : Handle)
    (path query : String) :
    (passesPolicy query = false →
      (ExecuteQuery eng ⟨some db, path⟩ query).ret = .error "only SELECT queries are supported" ∧
      (ExecuteQuery eng ⟨some db, path⟩ query).calls = [] ∧
      (ExecuteQuery eng ⟨some db, path⟩ query).app = ⟨some db, path⟩) ∧
    (passesPolicy query = true →
      (ExecuteQuery eng ⟨some db, path⟩ query).ret ≠ .error "only SELECT queries are supported" ∧
      (ExecuteQuery eng ⟨some db, path⟩ query).calls.head? = some (.Query db query) ∧
      (ExecuteQuery eng ⟨some db, path⟩ query).app = ⟨some db, path⟩) ∧
    passesPolicy "  select * from t" = true ∧ passesPolicy "SELECTfoo" = true ∧
    passesPolicy "DELETE FROM t" = false ∧
    (ExecuteQuery demoEngine ⟨some 1, "/data/app.db"⟩ "SELECTfoo").calls
      = [.Query 1 "SELECTfoo", .RowsClose 1 "SELECTfoo"] ∧
    (ExecuteQuery demoEngine ⟨some 1, "/data/app.db"⟩ "DELETE FROM t").ret
      = .error "only SELECT queries are supported" := by
  refine ⟨?_, ?_, by decide, by decide, by decide, rfl, rfl⟩
  · intro h
    unfold passesPolicy at h
    unfold ExecuteQuery
    simp [h]
  · intro h
    rw [ExecuteQuery_run eng db path query h]
    cases eng.Query db query with
    | error err =>
      refine ⟨?_, rfl, rfl⟩
      simp only [ne_eq, Except.error.injEq]
      exact append_ne_of_head err (x := 'f') (y := 'o') rfl rfl (by decide)
    | ok rows =>
      refine ⟨?_, rfl, rfl⟩
      simp only
      cases hr : readResult eng rows with
      | error e =>
        simp only [ne_eq, Except.error.injEq]
        exact readResult_error eng rows e hr
      | ok res => simp

/-- C2: every row of a successful result of `ExecuteQuery` or of `GetTableData` is as long
as the column list of that result, whatever the engine answers. -/
theorem rows_match_columns {V : Type} (eng : Engine V) (a : App) (query tableName : String)
    (res : QueryResult)
    (h : (ExecuteQuery eng a query).ret = .ok res ∨ (GetTableData eng a tableName).ret = .ok res)
    (row : List String) (hrow : row ∈ res.Rows) : row.length = res.Columns.length := by
  obtain ⟨adb, path⟩ := a
  cases adb with
  | none => rcases h with h | h <;> simp [ExecuteQuery, GetTableData] at h
  | some db =>
    rcases h with h | h
    · by_cases hq : passesPolicy query = true
      · rw [ExecuteQuery_run eng db path query hq] at h
        cases hQ : eng.Query db query with
        | error err => rw [hQ] at h; simp at h
        | ok rows =>
          rw [hQ] at h
          exact readResult_lengths eng rows res h row hrow
      · unfold passesPolicy at hq
        unfold ExecuteQuery at h
        simp [hq] at h
    · rw [GetTableData_run] at h
      cases hQ : eng.Query db ("SELECT * FROM " ++ tableName) with
      | error err => rw [hQ] at h; simp at h
      | ok rows =>
        rw [hQ] at h
        exact readResult_lengths eng rows res h row hrow

/-- The theorem `rows_match_columns` at the successful query `SELECT * FROM users` of
`demoEngine`, whose one row is `["1", "NULL"]` under the columns `["id", "name"]`. -/
theorem rows_match_columns_witness :
    (ExecuteQuery demoEngine ⟨some 1, "/data/app.db"⟩ "SELECT * FROM users").ret
        = .ok ⟨["id", "name"], [["1", "NULL"]]⟩ ∧
      ["1", "NULL"].length = (["id", "name"] : List String).length :=
  ⟨rfl,
    rows_match_columns demoEngine ⟨some 1, "/data/app.db"⟩ "SELECT * FROM users" "users"
      ⟨["id", "name"], [["1", "NULL"]]⟩ (Or.inl rfl) ["1", "NULL"] (by simp)⟩

theorem OpenDatabase_app {V : Type} (eng : Engine V) (a : App) :
    (OpenDatabase eng a).app = a ∨
      ∃ db path, (OpenDatabase eng a).app = ⟨some db, path⟩ ∧
        (OpenDatabase eng a).ret = .ok path := by
  unfold OpenDatabase
  cases eng.OpenFileDialog with
  | error err => exact Or.inl rfl
  | ok path =>
    simp only
    split
    · exact Or.inl rfl
    · cases eng.Open path with
      | error err => exact Or.inl rfl
      | ok db =>
        simp only
        cases eng.Ping db with
        | some err => exact Or.inl rfl
        | none => exact Or.inr ⟨db, path, rfl, rfl⟩

theorem GetTables_app {V : Type} (eng : Engine V) (a : App) : (GetTables eng a).app = a := by
  unfold GetTables
  cases a.db with
  | none => rfl
  | some db =>
    simp only
    cases eng.Query db _ <;> rfl

theorem GetTableSchema_app {V : Type} (eng : Engine V) (a : App) (tableName : String) :
    (GetTableSchema eng a tableName).app = a := by
  unfold GetTableSchema
  cases a.db with
  | none => rfl
  | some db =>
    simp only
    cases eng.Query db _ <;> rfl

theorem ExecuteQuery_app {V : Type} (eng : Engine V) (a : App) (query : String) :
    (ExecuteQuery eng a query).app = a := by
  obtain ⟨adb, path⟩ := a
  cases adb with
  | none => rfl
  | some db =>
    by_cases hq : passesPolicy query = true
    · rw [ExecuteQuery_run eng db path query hq]
      cases eng.Query db query <;> rfl
    · unfold passesPolicy at hq
      unfold ExecuteQuery
      simp [hq]

theorem GetTableData_app {V : Type} (eng : Engine V) (a : App) (tableName : String) :
    (GetTableData eng a tableName).app = a := by
  obtain ⟨adb, path⟩ := a
  cases adb with
  | none => rfl
  | some db =>
    rw [GetTableData_run]
    cases eng.Query db _ <;> rfl

theorem InsertRow_app {V : Type} (eng : Engine V) (a : App) (tableName : String)
    (values : List String) : (InsertRow eng a tableName values).app = a := by
  unfold InsertRow
  cases a.db with
  | none => rfl
  | some db =>
    simp only
    cases eng.Prepare db _ with
    | some err => rfl
    | none =>
      simp only
      cases eng.StmtExec db _ values <;> rfl

theorem UpdateRow_app {V : Type} (eng : Engine V) (a : App) (tableName column value whereColumn
    whereValue : String) :
    (UpdateRow eng a tableName column value whereColumn whereValue).app = a := by
  unfold UpdateRow
  cases a.db with
  | none => rfl
  | some db =>
    simp only
    cases eng.Exec db _ _ <;> rfl

theorem DeleteRow_app {V : Type} (eng : Engine V) (a : App) (tableName whereColumn
    whereValue : String) : (DeleteRow eng a tableName whereColumn whereValue).app = a := by
  unfold DeleteRow
  cases a.db with
  | none => rfl
  | some db =>
    simp only
    cases eng.Exec db _ _ <;> rfl

/-- In every reachable state an empty handle slot comes with an empty path. -/
theorem reachable_path {V : Type} (a : App) (h : Reachable V a) : a.db = none → a.dbPath = "" := by
  induction h with
  | newApp => intro _; rfl
  | openDatabase eng a _ ih =>
    rcases OpenDatabase_app eng a with h | ⟨db, path, h, _⟩
    · rw [h]; exact ih
    · rw [h]; intro hn; simp at hn
  | closeDatabase eng a _ ih =>
    unfold CloseDatabase
    cases hdb : a.db with
    | none => simp only; exact ih
    | some db => intro _; rfl
  | getTables eng a _ ih => rw [GetTables_app]; exact ih
  | getTableSchema eng a t _ ih => rw [GetTableSchema_app]; exact ih
  | executeQuery eng a q _ ih => rw [ExecuteQuery_app]; exact ih
  | getTableData eng a t _ ih => rw [GetTableData_app]; exact ih
  | insertRow eng a t vs _ ih => rw [InsertRow_app]; exact ih
  | updateRow eng a t c v w wv _ ih => rw [UpdateRow_app]; exact ih
  | deleteRow eng a t w wv _ ih => rw [DeleteRow_app]; exact ih

theorem CloseDatabase_app {V : Type} (eng : Engine V) (a : App) (h : Reachable V a) :
    (CloseDatabase eng a).app = ⟨none, ""⟩ := by
  obtain ⟨adb, path⟩ := a
  cases adb with
  | none =>
    have := reachable_path _ h rfl
    simp only at this
    rw [this]
    rfl
  | some db => rfl

/-- C3: from every reachable state, after `CloseDatabase` has returned (with or without an
error from the underlying close) `GetDatabasePath` returns the empty string, and each of
`GetTables`, `GetTableSchema`, `ExecuteQuery`, `GetTableData`, `InsertRow`, `UpdateRow` and
`DeleteRow` fails, for every argument and engine, with `no database open`, makes no call and
leaves the state as it is. -/
theorem no_database_after_CloseDatabase {V : Type} (eng : Engine V) (a : App)
    (h : Reachable V a) :
    GetDatabasePath (CloseDatabase eng a).app = "" ∧
    ∀ (eng2 : Engine V) (tableName column value whereColumn whereValue query : String)
      (values : List String),
      (GetTables eng2 (CloseDatabase eng a).app).ret = .error "no database open" ∧
      (GetTables eng2 (CloseDatabase eng a).app).calls = [] ∧
      (GetTables eng2 (CloseDatabase eng a).app).app = (CloseDatabase eng a).app ∧
      (GetTableSchema eng2 (CloseDatabase eng a).app tableName).ret
        = .error "no database open" ∧
      (GetTableSchema eng2 (CloseDatabase eng a).app tableName).calls = [] ∧
      (GetTableSchema eng2 (CloseDatabase eng a).app tableName).app = (CloseDatabase eng a).app ∧
      (ExecuteQuery eng2 (CloseDatabase eng a).app query).ret = .error "no database open" ∧
      (ExecuteQuery eng2 (CloseDatabase eng a).app query).calls = [] ∧
      (ExecuteQuery eng2 (CloseDatabase eng a).app query).app = (CloseDatabase eng a).app ∧
      (GetTableData eng2 (CloseDatabase eng a).app tableName).ret = .error "no database open" ∧
      (GetTableData eng2 (CloseDatabase eng a).app tableName).calls = [] ∧
      (GetTableData eng2 (CloseDatabase eng a).app tableName).app = (CloseDatabase eng a).app ∧
      (InsertRow eng2 (CloseDatabase eng a).app tableName values).ret
        = .error "no database open" ∧
      (InsertRow eng2 (CloseDatabase eng a).app tableName values).calls = [] ∧
      (InsertRow eng2 (CloseDatabase eng a).app tableName values).app
        = (CloseDatabase eng a).app ∧
      (UpdateRow eng2 (CloseDatabase eng a).app tableName column value whereColumn
        whereValue).ret = .error "no database open" ∧
      (UpdateRow eng2 (CloseDatabase eng a).app tableName column value whereColumn
        whereValue).calls = [] ∧
      (UpdateRow eng2 (CloseDatabase eng a).app tableName column value whereColumn
        whereValue).app = (CloseDatabase eng a).app ∧
      (DeleteRow eng2 (CloseDatabase eng a).app tableName whereColumn whereValue).ret
        = .error "no database open" ∧
      (DeleteRow eng2 (CloseDatabase eng a).app tableName whereColumn whereValue).calls = [] ∧
      (DeleteRow eng2 (CloseDatabase eng a).app tableName whereColumn whereValue).app
        = (CloseDatabase eng a).app := by
  rw [CloseDatabase_app eng a h]
  refine ⟨rfl, ?_⟩
  intro eng2 tableName column value whereColumn whereValue query values
  exact ⟨rfl, rfl, rfl, rfl, rfl, rfl, rfl, rfl, rfl, rfl, rfl, rfl, rfl, rfl, rfl, rfl, rfl, rfl,
    rfl, rfl, rfl⟩

/-- The theorem `no_database_after_CloseDatabase` at the state `OpenDatabase` reaches from
`NewApp()` on `demoEngine`, closed on `refusingEngine`, whose close reports an error. -/
theorem no_database_after_CloseDatabase_witness :
    (OpenDatabase demoEngine NewApp).app = ⟨some 1, "/data/app.db"⟩ ∧
      (CloseDatabase refusingEngine (OpenDatabase demoEngine NewApp).app).ret
        = .error "close failed" ∧
      GetDatabasePath (CloseDatabase refusingEngine (OpenDatabase demoEngine NewApp).app).app
        = "" ∧
      (GetTableData demoEngine
        (CloseDatabase refusingEngine (OpenDatabase demoEngine NewApp).app).app "users").ret
        = .error "no database open" :=
  ⟨rfl, rfl,
    (no_database_after_CloseDatabase refusingEngine (OpenDatabase demoEngine NewApp).app
      (Reachable.openDatabase demoEngine NewApp Reachable.newApp)).1,
    ((no_database_after_CloseDatabase refusingEngine (OpenDatabase demoEngine NewApp).app
      (Reachable.openDatabase demoEngine NewApp Reachable.newApp)).2 demoEngine "users" "" "" ""
      "" "" []).2.2.2.2.2.2.2.2.2.1⟩

theorem foldl_marks (k : Nat) :
    ∀ acc : String, ((List.replicate k "?").foldl (fun b s => b ++ "," ++ s) acc).data
      = acc.data ++ commaMarks k := by
  induction k with
  | zero => intro acc; simp [commaMarks]
  | succ k ih =>
    intro acc
    rw [List.replicate_succ, List.foldl_cons, ih]
    simp only [String.data_append, commaMarks, List.append_assoc]
    rfl

theorem intersperse_marks (k : Nat) :
    List.intersperse ',' (List.replicate (k + 1) '?') = '?' :: commaMarks k := by
  induction k with
  | zero => rfl
  | succ k ih =>
    rw [List.replicate_succ, List.replicate_succ, List.intersperse_cons_cons,
      ← List.replicate_succ, ih]
    rfl

theorem Join_placeholders (n : Nat) :
    strings.Join ((List.replicate n "").map fun _ => "?") ","
      = String.mk (List.intersperse ',' (List.replicate n '?')) := by
  rw [List.map_replicate]
  cases n with
  | zero => rfl
  | succ k =>
    apply String.ext
    rw [List.replicate_succ, strings.Join, foldl_marks, intersperse_marks]
    rfl

theorem InsertRow_calls {V : Type} (eng : Engine V) (db : Handle) (path tableName : String)
    (values : List String) :
    (InsertRow eng ⟨some db, path⟩ tableName values).calls
      = .Prepare db (insertStatement tableName values.length) ::
        (match eng.Prepare db (insertStatement tableName values.length) with
          | some _ => []
          | none => [.StmtExec db (insertStatement tableName values.length) values,
              .StmtClose db (insertStatement tableName values.length)]) := by
  unfold InsertRow
  simp only [Join_placeholders]
  rw [show "INSERT INTO " ++ tableName ++ " VALUES (" ++
    String.mk (List.intersperse ',' (List.replicate values.length '?')) ++ ")"
      = insertStatement tableName values.length from rfl]
  cases eng.Prepare db (insertStatement tableName values.length) with
  | some err => rfl
  | none =>
    simp only
    cases eng.StmtExec db (insertStatement tableName values.length) values <;> rfl

/-- C4 (the code against the claim): started with handle 1 open on `/data/app.db`,
`OpenDatabase` closes the handle and, the user cancelling the dialog, returns
`no file selected` with the closed handle and its path still stored: neither is the slot
empty nor is the stored handle one that was not closed. The next `GetTables` passes the nil
test and queries the closed handle. -/
theorem OpenDatabase_cancelled_keeps_closed_handle :
    (OpenDatabase refusingEngine ⟨some 1, "/data/app.db"⟩).ret = .error "no file selected" ∧
    (OpenDatabase refusingEngine ⟨some 1, "/data/app.db"⟩).calls
      = [.Close 1, .OpenFileDialog] ∧
    (OpenDatabase refusingEngine ⟨some 1, "/data/app.db"⟩).app = ⟨some 1, "/data/app.db"⟩ ∧
    GetDatabasePath (OpenDatabase refusingEngine ⟨some 1, "/data/app.db"⟩).app
      = "/data/app.db" ∧
    ¬ (((OpenDatabase refusingEngine ⟨some 1, "/data/app.db"⟩).app.db = none ∧
          (OpenDatabase refusingEngine ⟨some 1, "/data/app.db"⟩).app.dbPath = "") ∨
        ((OpenDatabase refusingEngine ⟨some 1, "/data/app.db"⟩).app = ⟨some 1, "/data/app.db"⟩ ∧
          Call.Close 1 ∉ (OpenDatabase refusingEngine ⟨some 1, "/data/app.db"⟩).calls)) ∧
    (GetTables refusingEngine (OpenDatabase refusingEngine ⟨some 1, "/data/app.db"⟩).app).calls
      = [.Query 1 "SELECT name FROM sqlite_master WHERE type='table' ORDER BY name"] :=
  ⟨rfl, rfl, rfl, rfl, by decide, rfl⟩

/-- Every failing `OpenDatabase` that starts with a handle open closes that handle and
leaves it, and its path, in place. -/
theorem OpenDatabase_failure_keeps_handle {V : Type} (eng : Engine V) (db : Handle)
    (path e : String) (h : (OpenDatabase eng ⟨some db, path⟩).ret = .error e) :
    (OpenDatabase eng ⟨some db, path⟩).app = ⟨some db, path⟩ ∧
      (OpenDatabase eng ⟨some db, path⟩).calls.head? = some (.Close db) := by
  unfold OpenDatabase at h ⊢
  cases hd : eng.OpenFileDialog with
  | error err => exact ⟨rfl, rfl⟩
  | ok p =>
    rw [hd] at h
    simp only at h ⊢
    split
    · exact ⟨rfl, rfl⟩
    · rename_i hp
      rw [if_neg hp] at h
      cases ho : eng.Open p with
      | error err => exact ⟨rfl, rfl⟩
      | ok db2 =>
        rw [ho] at h
        simp only at h ⊢
        cases hpg : eng.Ping db2 with
        | some err => exact ⟨rfl, rfl⟩
        | none => rw [hpg] at h; simp at h

/-- C5: the loop that fills a row writes into cell `i` the text `NULL` (four characters)
when value `i` is nil and `fmt.Sprintf("%v", val)` of value `i` otherwise, for every list of
scanned values; the loops of `ExecuteQuery` and of `GetTableData` compute the same rows, the
rendering of the cells each `Scan` stored into. -/
theorem marshaling_rule {V : Type} (eng : Engine V) (values : List (Option V)) :
    ExecuteQuery.marshal eng 0 values (List.replicate values.length "")
      = values.map (render eng) ∧
    GetTableData.marshal eng 0 values (List.replicate values.length "")
      = values.map (render eng) ∧
    (∀ i : Nat, (ExecuteQuery.marshal eng 0 values (List.replicate values.length ""))[i]?
      = values[i]?.map (render eng)) ∧
    render eng none = "NULL" ∧ (render eng none).length = 4 ∧
    (∀ v : V, render eng (some v) = eng.Sprintf_v v) ∧
    (∀ (columns : List String) (rows : List (Row V)),
      ExecuteQuery.loop eng columns rows [] = marshalRows eng columns.length rows ∧
      GetTableData.loop eng columns rows [] = marshalRows eng columns.length rows) := by
  have hloop : ∀ (columns : List String) (rows : List (Row V)),
      ExecuteQuery.loop eng columns rows [] = marshalRows eng columns.length rows := by
    intro columns rows
    rw [ExecuteQuery_loop_eq]
    cases marshalRows eng columns.length rows with
    | error e => rfl
    | ok rs => simp
  refine ⟨ExecuteQuery_marshal_eq_map eng values, ?_, ?_, rfl, rfl, fun _ => rfl, ?_⟩
  · rw [GetTableData_marshal_eq, ExecuteQuery_marshal_eq_map]
  · intro i
    rw [ExecuteQuery_marshal_eq_map, List.getElem?_map]
  · intro columns rows
    exact ⟨hloop columns rows, by rw [GetTableData_loop_eq, hloop]⟩

/-- C6: with a handle open, the first call of `InsertRow` is `Prepare` of
`INSERT INTO <tableName> VALUES (<list>)` with exactly `len(values)` placeholders `?`
separated by commas, for every table name and every list of values, the empty one
included (no count is checked first); when the engine accepts the statement it is executed
with exactly the given values, in order, and closed. -/
theorem InsertRow_statement {V : Type} (eng : Engine V) (db : Handle) (path tableName : String)
    (values : List String) :
    (InsertRow eng ⟨some db, path⟩ tableName values).calls
      = .Prepare db (insertStatement tableName values.length) ::
        (match eng.Prepare db (insertStatement tableName values.length) with
          | some _ => []
          | none => [.StmtExec db (insertStatement tableName values.length) values,
              .StmtClose db (insertStatement tableName values.length)]) ∧
    insertStatement tableName 0 = "INSERT INTO " ++ tableName ++ " VALUES ()" ∧
    insertStatement tableName 3 = "INSERT INTO " ++ tableName ++ " VALUES (?,?,?)" := by
  refine ⟨InsertRow_calls eng db path tableName values, ?_, ?_⟩ <;>
  · apply String.ext
    simp only [insertStatement, String.data_append, List.append_assoc]
    rfl

theorem GetTableSchema_loop_infos {V : Type} (infos : List TableInfo) :
    ∀ columns : List Column,
      GetTableSchema.loop (infos.map (infoRow (V := V))) columns
        = .ok (columns ++ infos.map GetTableSchema.column) := by
  induction infos with
  | nil => intro columns; simp [GetTableSchema.loop]
  | cons info rest ih =>
    intro columns
    have h : GetTableSchema.loop (infoRow (V := V) info :: rest.map (infoRow (V := V))) columns
        = GetTableSchema.loop (rest.map (infoRow (V := V)))
          (columns ++ [GetTableSchema.column info]) := rfl
    rw [List.map_cons, h, ih]
    simp

/-- C7 (the claim against the code): a catalog row with no default and the row that differs
from it only in reporting the empty string as default give the same `Column`, and
`GetTableSchema` returns the same list for the two catalogs. -/
theorem GetTableSchema_absent_equals_empty :
    GetTableSchema.column ⟨1, "name", "TEXT", true, none, 0⟩
      = GetTableSchema.column ⟨1, "name", "TEXT", true, some "", 0⟩ ∧
    (GetTableSchema (catalogEngine none) ⟨some 1, "/data/app.db"⟩ "users").ret
      = .ok [⟨"name", "TEXT", true, "", false⟩] ∧
    (GetTableSchema (catalogEngine (some "")) ⟨some 1, "/data/app.db"⟩ "users").ret
      = .ok [⟨"name", "TEXT", true, "", false⟩] :=
  ⟨rfl, rfl, rfl⟩

/-- C7, amended: the `DefaultValue` of the returned `Column` is the default the catalog
reports, and the empty string when it reports none; two catalog rows that differ at most in
their default give the same `Column` exactly when their defaults agree once an absent one is
read as empty, so that every non-empty default is recovered and an absent one is not told
from an empty one; a cursor of such rows gives their `Column`s in order. -/
theorem GetTableSchema_default (cid : Int) (name type : String) (notnull : Bool) (pk : Int)
    (d d2 : Option String) :
    (GetTableSchema.column ⟨cid, name, type, notnull, d, pk⟩).DefaultValue = d.getD "" ∧
    (GetTableSchema.column ⟨cid, name, type, notnull, d, pk⟩
        = GetTableSchema.column ⟨cid, name, type, notnull, d2, pk⟩ ↔ d.getD "" = d2.getD "") ∧
    (∀ infos : List TableInfo,
      GetTableSchema.loop (infos.map (infoRow (V := String))) []
        = .ok (infos.map GetTableSchema.column)) := by
  refine ⟨?_, ?_, ?_⟩
  · cases d <;> rfl
  · cases d <;> cases d2 <;> simp [GetTableSchema.column, NullString.Scan]
  · intro infos
    rw [GetTableSchema_loop_infos]
    rfl

/-- C8 (the claim against the code): when the engine refuses the statement the two calls
return different errors. -/
theorem GetTableData_error_differs :
    (GetTableData refusingEngine ⟨some 1, "/data/app.db"⟩ "t").ret
      = .error "failed to query table data: no such table: t" ∧
    (ExecuteQuery refusingEngine ⟨some 1, "/data/app.db"⟩ ("SELECT * FROM " ++ "t")).ret
      = .error "failed to execute query: no such table: t" ∧
    (GetTableData refusingEngine ⟨some 1, "/data/app.db"⟩ "t").ret
      ≠ (ExecuteQuery refusingEngine ⟨some 1, "/data/app.db"⟩ ("SELECT * FROM " ++ "t")).ret := by
  refine ⟨rfl, rfl, ?_⟩
  rw [show (GetTableData refusingEngine ⟨some 1, "/data/app.db"⟩ "t").ret
      = .error "failed to query table data: no such table: t" from rfl,
    show (ExecuteQuery refusingEngine ⟨some 1, "/data/app.db"⟩ ("SELECT * FROM " ++ "t")).ret
      = .error "failed to execute query: no such table: t" from rfl]
  intro h
  injection h with h
  revert h
  decide

/-- C8, amended: for every table name, state and engine, `GetTableData(tableName)` and
`ExecuteQuery("SELECT * FROM " + tableName)` make the same calls with the same statement
text, leave the same state, and succeed together with the same result; their errors are the
same too, except when the engine refuses the statement, where `GetTableData` reports
`failed to query table data: <cause>` and `ExecuteQuery` reports
`failed to execute query: <cause>` for the same cause. -/
theorem GetTableData_as_ExecuteQuery {V : Type} (eng : Engine V) (a : App)
    (tableName : String) :
    (GetTableData eng a tableName).calls
      = (ExecuteQuery eng a ("SELECT * FROM " ++ tableName)).calls ∧
    (GetTableData eng a tableName).app = (ExecuteQuery eng a ("SELECT * FROM " ++ tableName)).app ∧
    (∀ res, (GetTableData eng a tableName).ret = .ok res ↔
      (ExecuteQuery eng a ("SELECT * FROM " ++ tableName)).ret = .ok res) ∧
    ((GetTableData eng a tableName).ret = (ExecuteQuery eng a ("SELECT * FROM " ++ tableName)).ret ∨
      ∃ db cause, a.db = some db ∧
        eng.Query db ("SELECT * FROM " ++ tableName) = .error cause ∧
        (GetTableData eng a tableName).ret = .error ("failed to query table data: " ++ cause) ∧
        (ExecuteQuery eng a ("SELECT * FROM " ++ tableName)).ret
          = .error ("failed to execute query: " ++ cause)) := by
  obtain ⟨adb, path⟩ := a
  cases adb with
  | none => exact ⟨rfl, rfl, fun _ => Iff.rfl, Or.inl rfl⟩
  | some db =>
    rw [GetTableData_run, ExecuteQuery_run eng db path _ (select_star_passes tableName)]
    cases hQ : eng.Query db ("SELECT * FROM " ++ tableName) with
    | error cause =>
      refine ⟨rfl, rfl, fun res => ?_, Or.inr ⟨db, cause, rfl, hQ, rfl, rfl⟩⟩
      simp
    | ok rows => exact ⟨rfl, rfl, fun _ => Iff.rfl, Or.inl rfl⟩

/-- C9: with a handle open, the only call of `UpdateRow` is `Exec` of
`UPDATE <tableName> SET <column> = ? WHERE <whereColumn> = ?` with the arguments
`[value, whereValue]`, the only call of `DeleteRow` is `Exec` of
`DELETE FROM <tableName> WHERE <whereColumn> = ?` with the argument `[whereValue]`, and
`InsertRow` binds its values, in order, to the prepared statement; two calls of one operation
that agree on the identifiers and on the number of values hand the same statement texts to
the engine, whatever the values are. -/
theorem mutation_statements_parameterized {V : Type} (eng : Engine V) (db : Handle)
    (path tableName column whereColumn : String) :
    (∀ value whereValue : String,
      (UpdateRow eng ⟨some db, path⟩ tableName column value whereColumn whereValue).calls
        = [.Exec db (updateStatement tableName column whereColumn) [value, whereValue]]) ∧
    (∀ whereValue : String,
      (DeleteRow eng ⟨some db, path⟩ tableName whereColumn whereValue).calls
        = [.Exec db (deleteStatement tableName whereColumn) [whereValue]]) ∧
    (∀ values : List String,
      (∀ t ∈ statementTexts (InsertRow eng ⟨some db, path⟩ tableName values).calls,
        t = insertStatement tableName values.length) ∧
      (∀ c ∈ (InsertRow eng ⟨some db, path⟩ tableName values).calls,
        c.args = [] ∨ c.args = values)) ∧
    (∀ value whereValue value2 whereValue2 : String,
      statementTexts
          (UpdateRow eng ⟨some db, path⟩ tableName column value whereColumn whereValue).calls
        = statementTexts
          (UpdateRow eng ⟨some db, path⟩ tableName column value2 whereColumn whereValue2).calls) ∧
    (∀ whereValue whereValue2 : String,
      statementTexts (DeleteRow eng ⟨some db, path⟩ tableName whereColumn whereValue).calls
        = statementTexts
          (DeleteRow eng ⟨some db, path⟩ tableName whereColumn whereValue2).calls) ∧
    (∀ values values2 : List String, values.length = values2.length →
      statementTexts (InsertRow eng ⟨some db, path⟩ tableName values).calls
        = statementTexts (InsertRow eng ⟨some db, path⟩ tableName values2).calls) := by
  have hU : ∀ value whereValue : String,
      (UpdateRow eng ⟨some db, path⟩ tableName column value whereColumn whereValue).calls
        = [.Exec db (updateStatement tableName column whereColumn) [value, whereValue]] := by
    intro value whereValue
    unfold UpdateRow updateStatement
    simp only
    cases eng.Exec db _ _ <;> rfl
  have hD : ∀ whereValue : String,
      (DeleteRow eng ⟨some db, path⟩ tableName whereColumn whereValue).calls
        = [.Exec db (deleteStatement tableName whereColumn) [whereValue]] := by
    intro whereValue
    unfold DeleteRow deleteStatement
    simp only
    cases eng.Exec db _ _ <;> rfl
  refine ⟨hU, hD, ?_, ?_, ?_, ?_⟩
  · intro values
    rw [InsertRow_calls]
    cases eng.Prepare db (insertStatement tableName values.length) with
    | some err =>
      refine ⟨fun t ht => ?_, fun c hc => ?_⟩
      · simp only [statementTexts, List.filterMap_cons, Call.text, List.filterMap_nil,
          List.mem_singleton] at ht
        exact ht
      · simp only [List.mem_singleton] at hc
        rw [hc]
        exact Or.inl rfl
    | none =>
      refine ⟨fun t ht => ?_, fun c hc => ?_⟩
      · simp only [statementTexts, List.filterMap_cons, Call.text, List.filterMap_nil,
          List.mem_cons, List.mem_singleton, List.not_mem_nil, or_false, or_self] at ht
        exact ht
      · simp only [List.mem_cons, List.mem_singleton, List.not_mem_nil, or_false] at hc
        rcases hc with hc | hc | hc
        · rw [hc]; exact Or.inl rfl
        · rw [hc]; exact Or.inr rfl
        · rw [hc]; exact Or.inl rfl
  · intro value whereValue value2 whereValue2
    rw [hU, hU]
    rfl
  · intro whereValue whereValue2
    rw [hD, hD]
    rfl
  · intro values values2 hlen
    rw [InsertRow_calls, InsertRow_calls, hlen]
    cases eng.Prepare db (insertStatement tableName values2.length) <;> rfl

/-- The theorem `mutation_statements_parameterized` on `demoEngine`: an `UpdateRow` whose
value is itself SQL text reaches the engine as a bound argument of the fixed statement. -/
theorem mutation_statements_parameterized_witness :
    (UpdateRow demoEngine ⟨some 1, "/data/app.db"⟩ "users" "name" "x' OR '1'='1" "id" "1").calls
      = [.Exec 1 "UPDATE users SET name = ? WHERE id = ?" ["x' OR '1'='1", "1"]] :=
  (mutation_statements_parameterized demoEngine 1 "/data/app.db" "users" "name" "id").1
    "x' OR '1'='1" "1"

theorem isKeywordOrLongS_iff (l : List Char) :
    isKeywordOrLongS l = true ↔
      ∃ c1 c2 c3 c4 c5 c6 rest, l = c1 :: c2 :: c3 :: c4 :: c5 :: c6 :: rest ∧
        strings.upperChar c1 = 'S' ∧ strings.upperChar c2 = 'E' ∧ strings.upperChar c3 = 'L' ∧
        strings.upperChar c4 = 'E' ∧ strings.upperChar c5 = 'C' ∧ strings.upperChar c6 = 'T' := by
  match l with
  | c1 :: c2 :: c3 :: c4 :: c5 :: c6 :: rest =>
    simp only [isKeywordOrLongS, Bool.and_eq_true, Bool.or_eq_true, beq_iff_eq,
      ← strings.upperChar_eq_S, ← strings.upperChar_eq_E, ← strings.upperChar_eq_L,
      ← strings.upperChar_eq_C, ← strings.upperChar_eq_T]
    constructor
    · intro h
      exact ⟨c1, c2, c3, c4, c5, c6, rest, rfl, h.1.1.1.1.1, h.1.1.1.1.2, h.1.1.1.2, h.1.1.2,
        h.1.2, h.2⟩
    · rintro ⟨d1, d2, d3, d4, d5, d6, rest2, hl, h1, h2, h3, h4, h5, h6⟩
      simp only [List.cons.injEq] at hl
      obtain ⟨e1, e2, e3, e4, e5, e6, _⟩ := hl
      subst e1 e2 e3 e4 e5 e6
      exact ⟨⟨⟨⟨⟨h1, h2⟩, h3⟩, h4⟩, h5⟩, h6⟩
  | [] => simp [isKeywordOrLongS]
  | [_] => simp [isKeywordOrLongS]
  | [_, _] => simp [isKeywordOrLongS]
  | [_, _, _] => simp [isKeywordOrLongS]
  | [_, _, _, _] => simp [isKeywordOrLongS]
  | [_, _, _, _, _] => simp [isKeywordOrLongS]

/-- C10 (the claim against the code): the query `ſelect 1`, whose first character is U+017F,
passes the policy test, and it does not begin with the letters S, E, L, E, C, T in upper or
lower case. -/
theorem long_s_passes_policy :
    passesPolicy "\u017Felect 1" = true ∧ startsWithKeyword "\u017Felect 1" = false ∧
      ("\u017Felect 1".data.dropWhile strings.isSpaceChar).head? = some (Char.ofNat 0x17F) := by
  decide

/-- C10, amended: a query passes the policy test of `ExecuteQuery` exactly when the raw
query, its leading whitespace removed, begins with six characters of which the first is
`S`, `s` or U+017F (the long s, which `unicode.ToUpper` maps to `S`) and the next five are
the ASCII letters E, L, E, C, T, each in upper or lower case. -/
theorem passesPolicy_iff_keyword (query : String) :
    passesPolicy query = true ↔ startsWithKeywordOrLongS query = true := by
  rw [passesPolicy_iff]
  unfold startsWithKeywordOrLongS
  exact (isKeywordOrLongS_iff _).symm

end SqliteViewer
